import Mathlib

/-!
Verification development for the digital-graffiti server core.

The development shallowly embeds the parts of the code base that the
properties below are about:

* `app/rewrite.py` — the context-rewrite algebra (`query_rewrite`,
  `object_rewrite`);
* `app/schema.py` — message validation (`validate` and the `_to`
  identity-scoping scan);
* `app/rest.py` — the mutation coordinator (`update`, `remove`/`delete`)
  with its tombstone/rollback protocol;
* `app/db/db.py` — the older `delete` endpoint;
* `app/query/broker.py` — the change broker's match pass;
* `app/pubsub.py` — the subscription registry and the historical
  backfill (`process_existing` / `stream_query` / `publish_results`).

Queries and documents are dynamic JSON-like dictionaries in the source,
embedded here as the inductive type `Value`.  The backing store's query
evaluation (MongoDB) is an external capability; it is modelled by the
executable matcher `matchesDoc`, covering the constrained operator set
the rewritten predicates use (logical combinators, equality,
comparison, `$not`, `$nor`, `$elemMatch`, `$size`, `$exists`,
membership).
-/

/-- JSON-like dynamic values: the documents and queries of the system. -/
inductive Value where
  | null : Value
  | bool (b : Bool) : Value
  | num (n : Int) : Value
  | str (s : String) : Value
  | arr (xs : List Value) : Value
  | obj (fields : List (String × Value)) : Value

mutual

/-- Structural (Python `==`) equality of values. -/
def Value.beq : Value → Value → Bool
  | .null, .null => true
  | .bool a, .bool b => a == b
  | .num a, .num b => a == b
  | .str a, .str b => a == b
  | .arr xs, .arr ys => Value.beqList xs ys
  | .obj fs, .obj gs => Value.beqPairs fs gs
  | _, _ => false

/-- Elementwise equality of value lists. -/
def Value.beqList : List Value → List Value → Bool
  | [], [] => true
  | x :: xs, y :: ys => Value.beq x y && Value.beqList xs ys
  | _, _ => false

/-- Elementwise equality of key-value pair lists. -/
def Value.beqPairs : List (String × Value) → List (String × Value) → Bool
  | [], [] => true
  | (k, v) :: fs, (k', v') :: gs => k == k' && Value.beq v v' && Value.beqPairs fs gs
  | _, _ => false

end

instance : BEq Value := ⟨Value.beq⟩

mutual

theorem Value.beq_iff : ∀ (a b : Value), (Value.beq a b = true) ↔ a = b
  | .null, .null => by simp [Value.beq]
  | .null, .bool _ => by simp [Value.beq]
  | .null, .num _ => by simp [Value.beq]
  | .null, .str _ => by simp [Value.beq]
  | .null, .arr _ => by simp [Value.beq]
  | .null, .obj _ => by simp [Value.beq]
  | .bool _, .null => by simp [Value.beq]
  | .bool a, .bool b => by simp [Value.beq]
  | .bool _, .num _ => by simp [Value.beq]
  | .bool _, .str _ => by simp [Value.beq]
  | .bool _, .arr _ => by simp [Value.beq]
  | .bool _, .obj _ => by simp [Value.beq]
  | .num _, .null => by simp [Value.beq]
  | .num _, .bool _ => by simp [Value.beq]
  | .num a, .num b => by simp [Value.beq]
  | .num _, .str _ => by simp [Value.beq]
  | .num _, .arr _ => by simp [Value.beq]
  | .num _, .obj _ => by simp [Value.beq]
  | .str _, .null => by simp [Value.beq]
  | .str _, .bool _ => by simp [Value.beq]
  | .str _, .num _ => by simp [Value.beq]
  | .str a, .str b => by simp [Value.beq]
  | .str _, .arr _ => by simp [Value.beq]
  | .str _, .obj _ => by simp [Value.beq]
  | .arr _, .null => by simp [Value.beq]
  | .arr _, .bool _ => by simp [Value.beq]
  | .arr _, .num _ => by simp [Value.beq]
  | .arr _, .str _ => by simp [Value.beq]
  | .arr xs, .arr ys => by
    simp [Value.beq]
    exact Value.beqList_iff xs ys
  | .arr _, .obj _ => by simp [Value.beq]
  | .obj _, .null => by simp [Value.beq]
  | .obj _, .bool _ => by simp [Value.beq]
  | .obj _, .num _ => by simp [Value.beq]
  | .obj _, .str _ => by simp [Value.beq]
  | .obj _, .arr _ => by simp [Value.beq]
  | .obj fs, .obj gs => by
    simp [Value.beq]
    exact Value.beqPairs_iff fs gs

theorem Value.beqList_iff : ∀ (xs ys : List Value), (Value.beqList xs ys = true) ↔ xs = ys
  | [], [] => by simp [Value.beqList]
  | [], _ :: _ => by simp [Value.beqList]
  | _ :: _, [] => by simp [Value.beqList]
  | x :: xs, y :: ys => by
    simp [Value.beqList, Value.beq_iff x y, Value.beqList_iff xs ys]

theorem Value.beqPairs_iff :
    ∀ (fs gs : List (String × Value)), (Value.beqPairs fs gs = true) ↔ fs = gs
  | [], [] => by simp [Value.beqPairs]
  | [], _ :: _ => by simp [Value.beqPairs]
  | _ :: _, [] => by simp [Value.beqPairs]
  | (k, v) :: fs, (k', v') :: gs => by
    simp [Value.beqPairs, Value.beq_iff v v', Value.beqPairs_iff fs gs, and_assoc]

end

instance : DecidableEq Value :=
  fun a b => decidable_of_iff (Value.beq a b = true) (Value.beq_iff a b)

instance : LawfulBEq Value where
  eq_of_beq h := (Value.beq_iff _ _).mp h
  rfl := by
    intro a
    exact (Value.beq_iff a a).mpr rfl

/-- Look a key up in an association list (Python dict access). -/
def assocGet : List (String × Value) → String → Option Value
  | [], _ => none
  | (k', v) :: rest, k => if k' = k then some v else assocGet rest k

/-- Field access on a value: `doc[k]` when `doc` is an object. -/
def getField : Value → String → Option Value
  | .obj fs, k => assocGet fs k
  | _, _ => none

/-- Update-or-append a key in an association list (Python dict assignment:
updating an existing key keeps its position, a new key is appended). -/
def assocSet : List (String × Value) → String → Value → List (String × Value)
  | [], k, v => [(k, v)]
  | (k', v') :: rest, k, v =>
    if k' = k then (k', v) :: rest else (k', v') :: assocSet rest k v

/-- Field assignment `doc[k] = v` on an object value. -/
def setField : Value → String → Value → Value
  | .obj fs, k, v => .obj (assocSet fs k v)
  | w, _, _ => w

/-- Remove a key from an association list (Python `del doc[k]`). -/
def assocErase : List (String × Value) → String → List (String × Value)
  | [], _ => []
  | (k', v') :: rest, k =>
    if k' = k then assocErase rest k else (k', v') :: assocErase rest k

/-- Field removal on an object value. -/
def eraseField : Value → String → Value
  | .obj fs, k => .obj (assocErase fs k)
  | w, _ => w

/-- Does the key name a Mongo operator (starts with a dollar sign)? -/
def isOpKey (k : String) : Bool :=
  match k.data with
  | '$' :: _ => true
  | _ => false

/-- Is the key one of the query-level logical combinators? -/
def isLogicalKey (k : String) : Bool :=
  k = "$or" || k = "$and" || k = "$nor"

/-- Is the entry list a pure operator expression (non-empty, every key an
operator, none of them a query-level logical combinator)?  Mongo
dispatches `$elemMatch` bodies and field conditions on this shape. -/
def opsOnly (es : List (String × Value)) : Bool :=
  !es.isEmpty && es.all (fun e => isOpKey e.1) && !es.any (fun e => isLogicalKey e.1)

/-- Mongo equality between a condition literal and a (possibly missing)
field value: a `null` literal matches a missing field, and an array
field also matches when it contains the literal as an element. -/
def eqMatch (c : Value) (fv : Option Value) : Bool :=
  match fv with
  | none => c == .null
  | some v =>
    v == c ||
      (match v with
       | .arr xs => xs.any (fun x => x == c)
       | _ => false)

/-- Mongo `$in` membership of a (possibly missing) field value in a list of
condition literals. -/
def inMatch (cs : List Value) (fv : Option Value) : Bool :=
  cs.any (fun c => eqMatch c fv)

/-- Numeric comparison of a field value against a bound (used by the range
operators). -/
def cmpNum (f : Int → Int → Bool) (fv : Option Value) (c : Value) : Bool :=
  match fv, c with
  | some (.num a), .num b => f a b
  | _, _ => false

/-- The non-recursive operators of the constrained operator set, applied to
a (possibly missing) field value.  The recursive operators (`$not`,
`$elemMatch`) are handled by `opMatch`; an operator outside the allowed
set matches nothing. -/
def opMatchBase (k : String) (c : Value) (fv : Option Value) : Bool :=
  if k = "$eq" then eqMatch c fv
  else if k = "$ne" then !eqMatch c fv
  else if k = "$exists" then
    match c with
    | .bool b => fv.isSome == b
    | _ => false
  else if k = "$size" then
    match c, fv with
    | .num n, some (.arr xs) => (xs.length : Int) == n
    | _, _ => false
  else if k = "$gt" then cmpNum (fun a b => b < a) fv c
  else if k = "$gte" then cmpNum (fun a b => b ≤ a) fv c
  else if k = "$lt" then cmpNum (fun a b => a < b) fv c
  else if k = "$lte" then cmpNum (fun a b => a ≤ b) fv c
  else if k = "$in" then
    match c with
    | .arr cs => inMatch cs fv
    | _ => false
  else if k = "$nin" then
    match c with
    | .arr cs => !inMatch cs fv
    | _ => false
  else if k = "$all" then
    match c with
    | .arr cs => cs.all (fun cc => eqMatch cc fv)
    | _ => false
  else false

mutual

/-- The store's query evaluation: does document `v` satisfy query `q`?
A query is an object; a pure operator expression applies to the whole
value, otherwise each entry is a clause and the query is their
conjunction. -/
def matchesDoc (q v : Value) : Bool :=
  match q with
  | .obj entries =>
    if opsOnly entries then matchOps entries (some v) else matchPairs entries v
  | _ => false
termination_by 3 * sizeOf q
decreasing_by
  all_goals simp_wf
  all_goals omega

/-- Conjunction of the clauses of a query document. -/
def matchPairs (es : List (String × Value)) (v : Value) : Bool :=
  match es with
  | [] => true
  | (k, c) :: rest => clauseMatch k c v && matchPairs rest v
termination_by 3 * sizeOf es + 1
decreasing_by
  all_goals simp_wf
  all_goals omega

/-- One query clause: a logical combinator applied to subqueries, or a
condition on a named field. -/
def clauseMatch (k : String) (c : Value) (v : Value) : Bool :=
  if k = "$or" then orAny c v
  else if k = "$and" then andAll c v
  else if k = "$nor" then norAll c v
  else fieldCond c (getField v k)
termination_by 3 * sizeOf c + 3
decreasing_by
  all_goals simp_wf
  all_goals omega

/-- `$or`: some subquery matches. -/
def orAny (c : Value) (v : Value) : Bool :=
  match c with
  | .arr qs => qs.attach.any (fun x => matchesDoc x.1 v)
  | _ => false
termination_by 3 * sizeOf c + 2
decreasing_by
  all_goals simp_wf
  all_goals (have h := List.sizeOf_lt_of_mem x.2; omega)

/-- `$and`: every subquery matches. -/
def andAll (c : Value) (v : Value) : Bool :=
  match c with
  | .arr qs => qs.attach.all (fun x => matchesDoc x.1 v)
  | _ => false
termination_by 3 * sizeOf c + 2
decreasing_by
  all_goals simp_wf
  all_goals (have h := List.sizeOf_lt_of_mem x.2; omega)

/-- `$nor`: no subquery matches. -/
def norAll (c : Value) (v : Value) : Bool :=
  match c with
  | .arr qs => qs.attach.all (fun x => !matchesDoc x.1 v)
  | _ => false
termination_by 3 * sizeOf c + 2
decreasing_by
  all_goals simp_wf
  all_goals (have h := List.sizeOf_lt_of_mem x.2; omega)

/-- A condition on a field: an operator expression applied to the field
value, or literal equality. -/
def fieldCond (c : Value) (fv : Option Value) : Bool :=
  match c with
  | .obj entries => if opsOnly entries then matchOps entries fv else eqMatch c fv
  | _ => eqMatch c fv
termination_by 3 * sizeOf c + 1
decreasing_by
  all_goals simp_wf
  all_goals omega

/-- Conjunction of the operators of an operator expression. -/
def matchOps (ops : List (String × Value)) (fv : Option Value) : Bool :=
  match ops with
  | [] => true
  | (k, c) :: rest => opMatch k c fv && matchOps rest fv
termination_by 3 * sizeOf ops + 1
decreasing_by
  all_goals simp_wf
  all_goals omega

/-- A single operator applied to a (possibly missing) field value: the
recursive operators `$not` and `$elemMatch`, with everything else
delegated to `opMatchBase`. -/
def opMatch (k : String) (c : Value) (fv : Option Value) : Bool :=
  if k = "$not" then notOp c fv
  else if k = "$elemMatch" then elemAny c fv
  else opMatchBase k c fv
termination_by 3 * sizeOf c + 3
decreasing_by
  all_goals simp_wf
  all_goals omega

/-- `$not`: negation of an operator expression on the field value. -/
def notOp (c : Value) (fv : Option Value) : Bool :=
  match c with
  | .obj entries => !matchOps entries fv
  | _ => false
termination_by 3 * sizeOf c + 2
decreasing_by
  all_goals simp_wf
  all_goals omega

/-- `$elemMatch`: some element of the array field satisfies the inner
query. -/
def elemAny (c : Value) (fv : Option Value) : Bool :=
  match fv with
  | some (.arr xs) => xs.attach.any (fun x => matchesDoc c x.1)
  | _ => false
termination_by 3 * sizeOf c + 2
decreasing_by
  all_goals simp_wf
  all_goals omega

end

theorem any_attach (l : List Value) (f : Value → Bool) :
    (l.attach.any fun x => f x.1) = l.any f := by
  rw [List.any_eq, List.any_eq, decide_eq_decide]
  constructor
  · rintro ⟨⟨a, ha⟩, _, hf⟩
    exact ⟨a, ha, hf⟩
  · rintro ⟨a, ha, hf⟩
    exact ⟨⟨a, ha⟩, List.mem_attach _ _, hf⟩

theorem all_attach (l : List Value) (f : Value → Bool) :
    (l.attach.all fun x => f x.1) = l.all f := by
  rw [List.all_eq, List.all_eq, decide_eq_decide]
  constructor
  · intro h a ha
    exact h ⟨a, ha⟩ (List.mem_attach _ _)
  · intro h x _
    exact h x.1 x.2

@[simp] theorem isOpKey_object : isOpKey "_object" = false := by decide
@[simp] theorem isOpKey_contexts : isOpKey "_contexts" = false := by decide
@[simp] theorem isOpKey_nearMisses : isOpKey "_nearMisses" = false := by decide
@[simp] theorem isOpKey_neighbors : isOpKey "_neighbors" = false := by decide
@[simp] theorem isOpKey_tombstone : isOpKey "_tombstone" = false := by decide
@[simp] theorem isOpKey_id : isOpKey "_id" = false := by decide
@[simp] theorem isOpKey_externalID : isOpKey "_externalID" = false := by decide
@[simp] theorem isOpKey_ownerId : isOpKey "_owner_id" = false := by decide
@[simp] theorem isOpKey_by : isOpKey "_by" = false := by decide
@[simp] theorem isOpKey_to : isOpKey "_to" = false := by decide
@[simp] theorem isOpKey_objectUuid : isOpKey "object.uuid" = false := by decide
@[simp] theorem isOpKey_or : isOpKey "$or" = true := by decide
@[simp] theorem isOpKey_and : isOpKey "$and" = true := by decide
@[simp] theorem isOpKey_nor : isOpKey "$nor" = true := by decide
@[simp] theorem isOpKey_not : isOpKey "$not" = true := by decide
@[simp] theorem isOpKey_elemMatch : isOpKey "$elemMatch" = true := by decide
@[simp] theorem isOpKey_size : isOpKey "$size" = true := by decide
@[simp] theorem isOpKey_gt : isOpKey "$gt" = true := by decide

example : matchesDoc (.obj []) (.obj [("a", .num 1)]) = true := by
  simp +decide [matchesDoc, matchPairs]

example : matchesDoc (.obj [("a", .num 1)]) (.obj [("a", .num 1)]) = true := by
  simp +decide [matchesDoc, matchPairs, clauseMatch, fieldCond, getField, assocGet, eqMatch]

example : isOpKey "$or" = true := by decide

example : matchesDoc (.obj [("a", .num 1)]) (.obj [("a", .num 2)]) = false := by
  simp +decide [matchesDoc, matchPairs, clauseMatch, fieldCond, getField, assocGet, eqMatch]

/-! ## app/rewrite.py — the context-rewrite algebra -/

/-- The per-context condition of the rewritten query (the body of the
`$elemMatch` over `_contexts` in `query_rewrite`, rewrite.py lines
38-51): none of the near misses may match the query, and no neighbor
may fail to match it. -/
def context_condition (q : Value) : Value :=
  .obj [("_nearMisses", .obj [("$not", .obj [("$elemMatch", q)])]),
        ("_neighbors", .obj [("$not", .obj [("$elemMatch", .obj [("$nor", .arr [q])])])])]

/-- `query_rewrite` (rewrite.py lines 30-56): wraps a caller query into the
store-native visibility predicate.  The source also returns a sha256
fingerprint of the serialized predicate; no claim concerns it and it is
not modelled. -/
def query_rewrite (q : Value) : Value :=
  .obj [("_object", .obj [("$elemMatch", q)]),
        ("$or", .arr [
          .obj [("_contexts", .obj [("$size", .num 0)])],
          .obj [("_contexts", .obj [("$elemMatch", context_condition q)])]])]

/-- The mutation of the object performed by `object_rewrite` (rewrite.py
lines 6-18): remove `_contexts`, then fill in `_id` and `_timestamp` if
absent.  The source draws the fresh id from `uuid4()` and the timestamp
from the clock; both are environment inputs and passed as parameters. -/
def stampObject (object : Value) (fresh_id : String) (now : Int) : Value :=
  let o1 := eraseField object "_contexts"
  let o2 := if (getField o1 "_id").isSome then o1 else setField o1 "_id" (.str fresh_id)
  if (getField o2 "_timestamp").isSome then o2 else setField o2 "_timestamp" (.num now)

/-- `object_rewrite` (rewrite.py lines 6-28): split an object into the
stored document shape, returning the object id and the document. -/
def object_rewrite (object : Value) (owner_id : Value) (fresh_id : String) (now : Int) :
    Value × Value :=
  let contexts := (getField object "_contexts").getD (.arr [])
  let stamped := stampObject object fresh_id now
  let object_id := (getField stamped "_id").getD .null
  (object_id,
   .obj [("_owner_id", owner_id), ("_object", .arr [stamped]), ("_contexts", contexts)])

/-- A context document as stored under `_contexts` (schema.py: objects with
`_nearMisses` and `_neighbors` arrays). -/
def contextDoc (nearMisses neighbors : List Value) : Value :=
  .obj [("_nearMisses", .arr nearMisses), ("_neighbors", .arr neighbors)]

/-- How the rewritten predicate evaluates one context element: no near miss
matches the query, and every neighbor does. -/
theorem context_condition_eval (q : Value) (nms nbs : List Value) :
    matchesDoc (context_condition q) (contextDoc nms nbs)
      = (!nms.any (fun nm => matchesDoc q nm) && nbs.all (fun nb => matchesDoc q nb)) := by
  simp +decide [context_condition, contextDoc, matchesDoc, matchPairs, clauseMatch, fieldCond,
    matchOps, opMatch, notOp, elemAny, norAll, opsOnly, isLogicalKey, getField, assocGet,
    any_attach, all_attach, List.all_eq_not_any_not]
  rw [any_attach nbs (fun x => !matchesDoc q x)]

/-- How the rewritten predicate evaluates a stored document: the payload
must match the caller query, and the contexts list must be empty or
contain a passing context. -/
theorem query_rewrite_eval (q payload owner : Value) (cs : List Value) :
    matchesDoc (query_rewrite q)
        (.obj [("_owner_id", owner), ("_object", .arr [payload]), ("_contexts", .arr cs)])
      = (matchesDoc q payload
          && (decide (cs = []) || cs.any (fun c => matchesDoc (context_condition q) c))) := by
  have hlen : ((cs.length : Int) == 0) = decide (cs = []) := by
    cases cs with
    | nil => simp
    | cons a l =>
      simp only [List.length_cons, decide_eq_false_iff_not]
      simp
      omega
  simp +decide [query_rewrite, matchesDoc, matchPairs, clauseMatch, fieldCond,
    matchOps, opMatch, opMatchBase, notOp, elemAny, orAny, opsOnly, isLogicalKey,
    getField, assocGet, any_attach, all_attach, hlen]

@[simp] theorem isOpKey_flag : isOpKey "flag" = false := by decide
@[simp] theorem isOpKey_a : isOpKey "a" = false := by decide
@[simp] theorem isOpKey_nope : isOpKey "nope" = false := by decide

/-- C1: for every query `q`, the predicate produced by `query_rewrite`
matches a stored document iff the payload matches `q` and the contexts
list is empty or has a passing context, where a context passes exactly
when none of its `nearMisses` match `q` and all of its `neighbors`
match `q`; in particular a context with empty `nearMisses` and empty
`neighbors` passes every query, and a context with a neighbor that
fails to match `q` never passes. -/
theorem c1_context_visibility (q payload owner : Value) (nms nbs cs : List Value) :
    (matchesDoc (query_rewrite q)
        (.obj [("_owner_id", owner), ("_object", .arr [payload]), ("_contexts", .arr cs)])
      = (matchesDoc q payload
          && (decide (cs = []) || cs.any (fun c => matchesDoc (context_condition q) c))))
    ∧ (matchesDoc (context_condition q) (contextDoc nms nbs)
        = (!nms.any (fun nm => matchesDoc q nm) && nbs.all (fun nb => matchesDoc q nb)))
    ∧ matchesDoc (context_condition q) (contextDoc [] []) = true
    ∧ (∀ nb ∈ nbs, matchesDoc q nb = false →
        matchesDoc (context_condition q) (contextDoc nms nbs) = false) := by
  refine ⟨query_rewrite_eval q payload owner cs, context_condition_eval q nms nbs, ?_, ?_⟩
  · rw [context_condition_eval]
    simp
  · intro nb hmem hfail
    rw [context_condition_eval]
    have hall : nbs.all (fun nb => matchesDoc q nb) = false := by
      rw [List.all_eq_false]
      exact ⟨nb, hmem, by simp [hfail]⟩
    simp [hall]

/-- Witness for C1: the near-miss context of end-to-end scenario 2.  The
context with one near miss and no neighbors fails the rewritten
predicate for the decoy query, and the theorem's last conjunct applied
to a neighbor that does not match the query yields a failing context. -/
theorem c1_context_visibility_witness :
    matchesDoc (context_condition (.obj [("flag", .str "x")]))
        (contextDoc [] [.obj [("flag", .str "y")]]) = false :=
  (c1_context_visibility (.obj [("flag", .str "x")]) .null .null [] [.obj [("flag", .str "y")]]
      []).2.2.2
    (.obj [("flag", .str "y")]) (by simp)
    (by simp +decide [matchesDoc, matchPairs, clauseMatch, fieldCond, getField, assocGet,
      eqMatch, opsOnly, isLogicalKey])

/-- C2: for an object whose contexts list is empty (no `_contexts` key, or
an empty one), the predicate produced by `query_rewrite` matches the
stored document produced by `object_rewrite` iff the caller query
matches the object's payload (the stamped object). -/
theorem c2_no_contexts_universal (q object owner : Value) (fid : String) (now : Int)
    (hctx : getField object "_contexts" = none ∨ getField object "_contexts" = some (.arr [])) :
    matchesDoc (query_rewrite q) (object_rewrite object owner fid now).2
      = matchesDoc q (stampObject object fid now) := by
  have hdoc : (object_rewrite object owner fid now).2
      = .obj [("_owner_id", owner), ("_object", .arr [stampObject object fid now]),
              ("_contexts", .arr [])] := by
    rcases hctx with h | h <;> simp [object_rewrite, h]
  rw [hdoc, query_rewrite_eval]
  simp

/-- Witness for C2: a fresh object with no `_contexts` key; its stored
document matches the rewritten query exactly when the payload does. -/
theorem c2_no_contexts_universal_witness :
    (getField (.obj [("flag", .str "x")]) "_contexts" = none ∨
      getField (.obj [("flag", .str "x")]) "_contexts" = some (.arr [])) ∧
    matchesDoc (query_rewrite (.obj [("flag", .str "x")]))
        (object_rewrite (.obj [("flag", .str "x")]) (.str "alice") "id1" 7).2
      = matchesDoc (.obj [("flag", .str "x")])
          (stampObject (.obj [("flag", .str "x")]) "id1" 7) :=
  ⟨Or.inl (by decide),
   c2_no_contexts_universal (.obj [("flag", .str "x")]) (.obj [("flag", .str "x")])
     (.str "alice") "id1" 7 (Or.inl (by decide))⟩

/-! ## app/schema.py — message validation -/

/-- Lowercase hexadecimal digit (the character class of `UUID_PATTERN`). -/
def isHexDig (c : Char) : Bool :=
  ('0' ≤ c && c ≤ '9') || ('a' ≤ c && c ≤ 'f')

/-- The `UUID_PATTERN` of schema.py: 8-4-4-4-12 lowercase hex groups
separated by dashes. -/
def isUUID (s : String) : Bool :=
  s.data.length == 36 &&
    s.data.enum.all (fun p =>
      if p.1 = 8 || p.1 = 13 || p.1 = 18 || p.1 = 23 then p.2 == '-' else isHexDig p.2)

mutual

/-- The identifiers captured by `QUERY_OWNER_PATTERN.findall(json.dumps(msg))`
(schema.py lines 29 and 155): every value of a `"_to"` key anywhere in
the message that is a UUID-shaped string.  `json.dumps` escapes quotes
inside strings, so only real `"_to"` keys of the serialized message can
produce matches, and the regex captures only UUID-shaped values. -/
def findToValues : Value → List String
  | .obj fs => findToPairs fs
  | .arr xs => findToElems xs
  | _ => []

/-- `findToValues` over the entries of an object. -/
def findToPairs : List (String × Value) → List String
  | [] => []
  | (k, v) :: rest =>
    (if k = "_to" then
       match v with
       | .str s => if isUUID s then [s] else []
       | _ => []
     else []) ++ (findToValues v ++ findToPairs rest)

/-- `findToValues` over the elements of an array. -/
def findToElems : List Value → List String
  | [] => []
  | v :: rest => findToValues v ++ findToElems rest

end

/-- The loop of the subscribe branch of `validate` (schema.py lines
155-158): raise on the first captured identifier different from the
caller. -/
def scanToMatches (owner_id : String) : List String → Except String Unit
  | [] => .ok ()
  | m :: rest =>
    if m ≠ owner_id then .error "you can only query for objects _to yourself"
    else scanToMatches owner_id rest

/-- The ownership checks of `validate` (schema.py lines 146-158), after the
structural jsonschema validation (an external library call, out of the
modelled scope; it constrains every `_to` key in a query to a UUID
string). -/
def validate (msg : Value) (owner_id : String) : Except String Unit :=
  match getField msg "type" with
  | some (.str "update") =>
    if getField ((getField msg "object").getD .null) "_by" ≠ some (.str owner_id) then
      .error "you can only create objects _by yourself"
    else if !(match getField ((getField msg "object").getD .null) "_to" with
              | some (.arr xs) => xs.any (fun x => x == .str owner_id)
              | _ => false) then
      .error "you must make all objects _to yourself"
    else .ok ()
  | some (.str "subscribe") => scanToMatches owner_id (findToValues msg)
  | _ => .ok ()

theorem scanToMatches_ok (owner_id : String) (l : List String) :
    scanToMatches owner_id l = .ok () ↔ ∀ x ∈ l, x = owner_id := by
  induction l with
  | nil => simp [scanToMatches]
  | cons m rest ih =>
    by_cases hm : m = owner_id
    · simp [scanToMatches, hm, ih]
    · simp [scanToMatches, hm]

/-- C3: validation of a subscribe message succeeds iff every `_to` clause
captured anywhere in the message names the caller; equivalently, it
rejects exactly the messages containing a `_to` clause for an identity
other than the caller and accepts those whose `_to` clauses all name
the caller. -/
theorem c3_to_identity_scoping (msg : Value) (owner_id : String)
    (h : getField msg "type" = some (.str "subscribe")) :
    validate msg owner_id = .ok () ↔ ∀ x ∈ findToValues msg, x = owner_id := by
  rw [validate, h]
  exact scanToMatches_ok owner_id (findToValues msg)

/-- Witness for C3: a concrete subscribe message whose query constrains
`_to`. -/
theorem c3_to_identity_scoping_witness :
    (getField (.obj [("messageID", .str "m1"), ("type", .str "subscribe"),
        ("query", .obj [("_to", .str "aaaaaaaa-aaaa-aaaa-aaaa-aaaaaaaaaaaa")]),
        ("since", .null), ("queryID", .str "q1")]) "type" = some (.str "subscribe")) ∧
    (validate (.obj [("messageID", .str "m1"), ("type", .str "subscribe"),
        ("query", .obj [("_to", .str "aaaaaaaa-aaaa-aaaa-aaaa-aaaaaaaaaaaa")]),
        ("since", .null), ("queryID", .str "q1")]) "aaaaaaaa-aaaa-aaaa-aaaa-aaaaaaaaaaaa"
      = .ok () ↔
      ∀ x ∈ findToValues (.obj [("messageID", .str "m1"), ("type", .str "subscribe"),
        ("query", .obj [("_to", .str "aaaaaaaa-aaaa-aaaa-aaaa-aaaaaaaaaaaa")]),
        ("since", .null), ("queryID", .str "q1")]),
        x = "aaaaaaaa-aaaa-aaaa-aaaa-aaaaaaaaaaaa") :=
  ⟨by decide, c3_to_identity_scoping _ _ (by decide)⟩

/-! ## app/rest.py — the mutation coordinator -/

/-- The store: the list of stored documents (each carrying its Mongo `_id`)
plus the next internal id Mongo would assign on insert. -/
structure DbState where
  store : List Value
  nextId : Int
deriving DecidableEq

/-- The errors an `update` call can surface.  `lockKeyError` stands for the
KeyError/TypeError raised at the lock-construction line when the object
has no usable `_id`; the two rollback errors are store faults raised by
the rollback operations themselves. -/
inductive UErr where
  | notLoggedIn
  | lockKeyError
  | insertFailed
  | findFailed
  | verifyFailed
  | rollbackDeleteFailed
  | rollbackUntombFailed
deriving DecidableEq

/-- Modelled from the spec: `object_to_doc` is imported by rest.py from
rewrite.py but absent from src.  Per the spec's data model (objects
carry contexts, tombstones are logical-delete markers) and the fields
rest.py relies on (`_externalID` and `_object._by` in the delete
filter, `_object`/`_contexts` in the rewritten verification query,
`_tombstone` cleared on insert), it wraps the object's payload under
`_object`, its contexts under `_contexts`, and its content id under
`_externalID`. -/
def object_to_doc (object : Value) : Value :=
  .obj [("_externalID", (getField object "_id").getD .null),
        ("_object", .arr [eraseField object "_contexts"]),
        ("_contexts", (getField object "_contexts").getD (.arr [])),
        ("_tombstone", .bool false)]

/-- The filter of `Rest.delete` (rest.py lines 94-100):
`_externalID == object_id`, some element of the `_object` array has
`_by == owner_id` (Mongo dotted-path fan-out), and the tombstone is
clear. -/
def deleteFilter (object_id owner_id : String) (d : Value) : Bool :=
  eqMatch (.str object_id) (getField d "_externalID") &&
  (match getField d "_object" with
   | some (.arr l) => l.any (fun e => eqMatch (.str owner_id) (getField e "_by"))
   | some e => eqMatch (.str owner_id) (getField e "_by")
   | none => false) &&
  eqMatch (.bool false) (getField d "_tombstone")

/-- `find_one_and_update` with the delete filter and `$set _tombstone true`:
returns the first matching document (pre-update) and the updated
store. -/
def tombstoneFirst (object_id owner_id : String) : List Value → Option (Value × List Value)
  | [] => none
  | d :: rest =>
    if deleteFilter object_id owner_id d then
      some (d, setField d "_tombstone" (.bool true) :: rest)
    else
      (tombstoneFirst object_id owner_id rest).map (fun p => (p.1, d :: p.2))

/-- `Rest.delete` (rest.py lines 89-108): tombstone the live document with
this external id owned by the caller, returning its internal id;
raise if there is none. -/
def Rest_delete (st : DbState) (object_id owner_id : String) :
    Except String Value × DbState :=
  match tombstoneFirst object_id owner_id st.store with
  | none =>
    (.error "the object you are trying to modify either does not exist or you do not have permission to modify it.", st)
  | some (d, store') =>
    match getField d "_id" with
    | some idv => (.ok idv, { st with store := store' })
    | none => (.error "KeyError", { st with store := store' })

/-- `find_one_and_update` with filter `_id == idv` and `$set _tombstone
false` (the un-tombstone step of the rollback). -/
def untombFirst (idv : Value) : List Value → List Value
  | [] => []
  | d :: rest =>
    if getField d "_id" == some idv then setField d "_tombstone" (.bool false) :: rest
    else d :: untombFirst idv rest

/-- `delete_one` with filter `_id == n` (removing the fresh insert during
rollback). -/
def removeFirstById (n : Int) : List Value → List Value
  | [] => []
  | d :: rest =>
    if getField d "_id" == some (.num n) then rest else d :: removeFirstById n rest

/-- The un-tombstone half of the rollback (rest.py lines 52-58 followed by
`raise e`): restore the original if one was tombstoned, reporting the
original error; a store fault here propagates instead. -/
def rollbackUntomb (delete_id : Option Value) (rbUntombFails : Bool) (e : UErr)
    (st : DbState) : Except UErr Unit × DbState :=
  match delete_id with
  | some idv =>
    if rbUntombFails then (.error .rollbackUntombFailed, st)
    else (.error e, { st with store := untombFirst idv st.store })
  | none => (.error e, st)

/-- The rollback of `Rest.update` (rest.py lines 46-61): delete the fresh
insert if it landed, un-tombstone the original if one was tombstoned,
and re-raise the original error; a store fault in either rollback
operation propagates from the `except` block instead (there is no
try/except or logging around these two awaits). -/
def rollback (delete_id : Option Value) (newId : Option Int)
    (rbDeleteFails rbUntombFails : Bool) (e : UErr) (st : DbState) :
    Except UErr Unit × DbState :=
  match newId with
  | some n =>
    if rbDeleteFails then (.error .rollbackDeleteFailed, st)
    else rollbackUntomb delete_id rbUntombFails e { st with store := removeFirstById n st.store }
  | none => rollbackUntomb delete_id rbUntombFails e st

/-- `Rest.update` (rest.py lines 15-72).  The redis lock and the final
publish are connection-level effects outside the modelled store state;
each awaited store operation can fail, modelled by the fault flags
(insert_one, the re-fetch find_one, and the two rollback operations).
The initial `self.delete` is attempted and its failure swallowed
(lines 23-28); the fresh insert gets the next internal id; the
re-fetch runs the rewritten verification query restricted to the
inserted id (lines 38-44). -/
def update (st : DbState) (object query : Value) (owner_id : String)
    (insertFails findFails rbDeleteFails rbUntombFails : Bool) :
    Except UErr Unit × DbState :=
  -- validate_owner_id raises on a falsy owner id, modelled as the empty string
  if owner_id = "" then (.error .notLoggedIn, st)
  else
    match getField object "_id" with
    | some (.str object_id) =>
      let delRes := Rest_delete st object_id owner_id
      let delete_id : Option Value :=
        match delRes.1 with
        | .ok v => some v
        | .error _ => none
      let st1 := delRes.2
      if insertFails then
        rollback delete_id none rbDeleteFails rbUntombFails .insertFailed st1
      else
        let newId := st1.nextId
        let doc := setField (object_to_doc object) "_id" (.num newId)
        let st2 : DbState := ⟨st1.store ++ [doc], newId + 1⟩
        if findFails then
          rollback delete_id (some newId) rbDeleteFails rbUntombFails .findFailed st2
        else
          let q' := setField (query_rewrite query) "_id" (.num newId)
          match st2.store.find? (fun d => matchesDoc q' d) with
          | some _ => (.ok (), st2)
          | none => rollback delete_id (some newId) rbDeleteFails rbUntombFails .verifyFailed st2
    | _ => (.error .lockKeyError, st)

/-- Well-formedness of a stored document: a numeric internal `_id` below
the next-id counter and a boolean tombstone. -/
def wfDoc (next : Int) (d : Value) : Bool :=
  (match getField d "_id" with
   | some (.num n) => decide (n < next)
   | _ => false) &&
  (match getField d "_tombstone" with
   | some (.bool _) => true
   | _ => false)

/-- A live read by external id (the shape pubsub/query reads use:
`_externalID` equality and tombstone clear). -/
def readLive (st : DbState) (object_id : String) : Option Value :=
  st.store.find? (fun d =>
    eqMatch (.str object_id) (getField d "_externalID") &&
    eqMatch (.bool false) (getField d "_tombstone"))

theorem assocGet_assocSet (fs : List (String × Value)) (k : String) (v : Value) :
    assocGet (assocSet fs k v) k = some v := by
  induction fs with
  | nil => simp [assocSet, assocGet]
  | cons p rest ih =>
    obtain ⟨k', v'⟩ := p
    by_cases h : k' = k
    · simp [assocSet, assocGet, h]
    · simp [assocSet, assocGet, h, ih]

theorem assocGet_assocSet_ne (fs : List (String × Value)) (k k' : String) (v : Value)
    (h : k ≠ k') : assocGet (assocSet fs k v) k' = assocGet fs k' := by
  induction fs with
  | nil => simp [assocSet, assocGet, h]
  | cons p rest ih =>
    obtain ⟨k1, v1⟩ := p
    by_cases h1 : k1 = k
    · subst h1
      simp [assocSet, assocGet, h]
    · simp [assocSet, assocGet, h1, ih]

theorem assocSet_assocSet (fs : List (String × Value)) (k : String) (v1 v2 : Value) :
    assocSet (assocSet fs k v1) k v2 = assocSet fs k v2 := by
  induction fs with
  | nil => simp [assocSet]
  | cons p rest ih =>
    obtain ⟨k', v'⟩ := p
    by_cases h : k' = k
    · simp [assocSet, h]
    · simp [assocSet, h, ih]

theorem assocSet_self (fs : List (String × Value)) (k : String) (v : Value)
    (h : assocGet fs k = some v) : assocSet fs k v = fs := by
  induction fs with
  | nil => simp [assocGet] at h
  | cons p rest ih =>
    obtain ⟨k', v'⟩ := p
    by_cases hk : k' = k
    · simp [assocGet, hk] at h
      simp [assocSet, hk, h]
    · simp [assocGet, hk] at h
      simp [assocSet, hk, ih h]

theorem setField_setField (d : Value) (k : String) (v1 v2 : Value) :
    setField (setField d k v1) k v2 = setField d k v2 := by
  cases d <;> simp [setField, assocSet_assocSet]

theorem setField_self (d : Value) (k : String) (v : Value) (h : getField d k = some v) :
    setField d k v = d := by
  cases d <;> simp [getField] at h
  simp [setField, assocSet_self _ _ _ h]

theorem getField_setField_ne (d : Value) (k k' : String) (v : Value) (h : k ≠ k') :
    getField (setField d k v) k' = getField d k' := by
  cases d <;> simp [setField, getField, assocGet_assocSet_ne _ _ _ _ h]

theorem tombstoneFirst_cons_pos (object_id owner_id : String) (x : Value) (rest : List Value)
    (hx : deleteFilter object_id owner_id x = true) :
    tombstoneFirst object_id owner_id (x :: rest)
      = some (x, setField x "_tombstone" (.bool true) :: rest) := by
  simp [tombstoneFirst, hx]

theorem tombstoneFirst_cons_neg (object_id owner_id : String) (x : Value) (rest : List Value)
    (hx : ¬deleteFilter object_id owner_id x = true) :
    tombstoneFirst object_id owner_id (x :: rest)
      = (tombstoneFirst object_id owner_id rest).map (fun p => (p.1, x :: p.2)) := by
  simp [tombstoneFirst, hx]

theorem tombstoneFirst_mem (object_id owner_id : String) :
    ∀ (store store' : List Value) (d : Value),
      tombstoneFirst object_id owner_id store = some (d, store') → d ∈ store := by
  intro store
  induction store with
  | nil => intro store' d h; simp [tombstoneFirst] at h
  | cons x rest ih =>
    intro store' d h
    by_cases hx : deleteFilter object_id owner_id x = true
    · rw [tombstoneFirst_cons_pos _ _ _ _ hx] at h
      simp at h
      simp [h.1]
    · rw [tombstoneFirst_cons_neg _ _ _ _ hx] at h
      cases hr : tombstoneFirst object_id owner_id rest with
      | none => rw [hr] at h; simp at h
      | some p =>
        rw [hr] at h
        simp at h
        exact List.mem_cons_of_mem x (h.1 ▸ ih p.2 p.1 (by rw [hr]))

theorem tombstoneFirst_map_id (object_id owner_id : String) :
    ∀ (store store' : List Value) (d : Value),
      tombstoneFirst object_id owner_id store = some (d, store') →
      store'.map (fun x => getField x "_id") = store.map (fun x => getField x "_id") := by
  intro store
  induction store with
  | nil => intro store' d h; simp [tombstoneFirst] at h
  | cons x rest ih =>
    intro store' d h
    by_cases hx : deleteFilter object_id owner_id x = true
    · rw [tombstoneFirst_cons_pos _ _ _ _ hx] at h
      simp at h
      rw [← h.2]
      simp [getField_setField_ne _ _ _ _ (by decide : "_tombstone" ≠ "_id")]
    · rw [tombstoneFirst_cons_neg _ _ _ _ hx] at h
      cases hr : tombstoneFirst object_id owner_id rest with
      | none => rw [hr] at h; simp at h
      | some p =>
        rw [hr] at h
        simp at h
        rw [← h.2]
        simp [ih p.2 p.1 (by rw [hr])]

theorem eqMatch_bool_false (b : Bool) :
    eqMatch (.bool false) (some (.bool b)) = (b == false) := by
  cases b <;> simp [eqMatch] <;> decide

theorem deleteFilter_tombstone_false (object_id owner_id : String) (d : Value)
    (hf : deleteFilter object_id owner_id d = true)
    (hb : ∃ b, getField d "_tombstone" = some (.bool b)) :
    getField d "_tombstone" = some (.bool false) := by
  obtain ⟨b, hb⟩ := hb
  have h3 : eqMatch (.bool false) (getField d "_tombstone") = true := by
    simp [deleteFilter, Bool.and_eq_true] at hf
    exact hf.2
  rw [hb, eqMatch_bool_false] at h3
  simp at h3
  rw [hb, h3]

theorem untomb_roundtrip (object_id owner_id : String) :
    ∀ (store store' : List Value) (d : Value) (idv : Value),
      tombstoneFirst object_id owner_id store = some (d, store') →
      getField d "_id" = some idv →
      (store.map (fun x => getField x "_id")).Nodup →
      (∀ x ∈ store, ∃ b, getField x "_tombstone" = some (.bool b)) →
      untombFirst idv store' = store := by
  intro store
  induction store with
  | nil => intro store' d idv h; simp [tombstoneFirst] at h
  | cons x rest ih =>
    intro store' d idv h hd hnd htomb
    by_cases hx : deleteFilter object_id owner_id x = true
    · rw [tombstoneFirst_cons_pos _ _ _ _ hx] at h
      simp at h
      obtain ⟨hdx, hs⟩ := h
      subst hdx
      rw [← hs]
      have hidt : getField (setField x "_tombstone" (.bool true)) "_id" = some idv := by
        rw [getField_setField_ne _ _ _ _ (by decide : "_tombstone" ≠ "_id")]
        exact hd
      have htf : getField x "_tombstone" = some (.bool false) :=
        deleteFilter_tombstone_false _ _ _ hx (htomb x (by simp))
      rw [untombFirst, hidt]
      simp only [beq_self_eq_true, if_pos]
      rw [setField_setField, setField_self _ _ _ htf]
    · rw [tombstoneFirst_cons_neg _ _ _ _ hx] at h
      cases hr : tombstoneFirst object_id owner_id rest with
      | none => rw [hr] at h; simp at h
      | some p =>
        rw [hr] at h
        simp at h
        obtain ⟨hp1, hs⟩ := h
        rw [← hs]
        have hdm : d ∈ rest := hp1 ▸ tombstoneFirst_mem _ _ _ _ _ (by rw [hr])
        have hxid : ¬(getField x "_id" = some idv) := by
          intro hcontra
          have hmem : some idv ∈ rest.map (fun y => getField y "_id") :=
            List.mem_map.mpr ⟨d, hdm, hd⟩
          rw [List.map_cons, List.nodup_cons] at hnd
          exact hnd.1 (hcontra ▸ hmem)
        have hxid' : (getField x "_id" == some idv) = false := by
          simp [hxid]
        rw [untombFirst, hxid']
        simp only [Bool.false_eq_true, if_neg, not_false_eq_true]
        rw [ih p.2 p.1 idv (by rw [hr]) (hp1 ▸ hd)
          (by rw [List.map_cons, List.nodup_cons] at hnd; exact hnd.2)
          (fun y hy => htomb y (List.mem_cons_of_mem x hy))]

theorem removeFirstById_append (l : List Value) (doc : Value) (n : Int)
    (hl : ∀ x ∈ l, ¬(getField x "_id" = some (.num n)))
    (hdoc : getField doc "_id" = some (.num n)) :
    removeFirstById n (l ++ [doc]) = l := by
  induction l with
  | nil => simp [removeFirstById, hdoc]
  | cons x rest ih =>
    have hx : (getField x "_id" == some (.num n)) = false := by
      simp [hl x (by simp)]
    rw [List.cons_append, removeFirstById, hx]
    simp only [Bool.false_eq_true, if_neg, not_false_eq_true]
    rw [ih (fun y hy => hl y (by simp [hy]))]

theorem wfDoc_id (next : Int) (d : Value) (h : wfDoc next d = true) :
    ∃ n : Int, getField d "_id" = some (.num n) ∧ n < next := by
  rw [wfDoc, Bool.and_eq_true] at h
  obtain ⟨h1, _⟩ := h
  cases hg : getField d "_id" with
  | none => rw [hg] at h1; simp at h1
  | some v =>
    cases v with
    | num n =>
      rw [hg] at h1
      simp at h1
      exact ⟨n, rfl, h1⟩
    | null => rw [hg] at h1; simp at h1
    | bool b => rw [hg] at h1; simp at h1
    | str s => rw [hg] at h1; simp at h1
    | arr xs => rw [hg] at h1; simp at h1
    | obj fs => rw [hg] at h1; simp at h1

theorem wfDoc_tomb (next : Int) (d : Value) (h : wfDoc next d = true) :
    ∃ b, getField d "_tombstone" = some (.bool b) := by
  rw [wfDoc, Bool.and_eq_true] at h
  obtain ⟨_, h2⟩ := h
  cases hg : getField d "_tombstone" with
  | none => rw [hg] at h2; simp at h2
  | some v =>
    cases v with
    | bool b => exact ⟨b, rfl⟩
    | null => rw [hg] at h2; simp at h2
    | num n => rw [hg] at h2; simp at h2
    | str s => rw [hg] at h2; simp at h2
    | arr xs => rw [hg] at h2; simp at h2
    | obj fs => rw [hg] at h2; simp at h2

/-- When the rollback operations themselves do not fail, every `update`
call either succeeds or leaves the store contents exactly as they
were. -/
theorem update_rollback_ok (st : DbState) (object query : Value) (owner_id : String)
    (insertFails findFails : Bool)
    (hwf : ∀ d ∈ st.store, wfDoc st.nextId d = true)
    (hids : (st.store.map (fun x => getField x "_id")).Nodup) :
    (update st object query owner_id insertFails findFails false false).1 = .ok ()
    ∨ (update st object query owner_id insertFails findFails false false).2.store = st.store := by
  rw [update]
  by_cases howner : owner_id = ""
  · right
    simp [howner]
  · rw [if_neg howner]
    cases hid : getField object "_id" with
    | none => right; rfl
    | some v =>
      cases v with
      | null => right; rfl
      | bool b => right; rfl
      | num n => right; rfl
      | arr xs => right; rfl
      | obj fs => right; rfl
      | str object_id =>
        cases htf : tombstoneFirst object_id owner_id st.store with
        | none =>
          simp only [Rest_delete, htf]
          have hrm : removeFirstById st.nextId
              (st.store ++ [setField (object_to_doc object) "_id" (.num st.nextId)])
              = st.store := by
            apply removeFirstById_append
            · intro x hx hcontra
              obtain ⟨n, hgn, hlt⟩ := wfDoc_id _ _ (hwf x hx)
              rw [hgn] at hcontra
              simp at hcontra
              omega
            · simp [object_to_doc, setField, getField, assocGet_assocSet]
          cases insertFails with
          | true => right; simp [rollback, rollbackUntomb]
          | false =>
            cases findFails with
            | true => right; simp [rollback, rollbackUntomb, hrm]
            | false =>
              rw [if_neg (by decide : ¬(false = true)), if_neg (by decide : ¬(false = true))]
              split
              · left; rfl
              · right; simp [rollback, rollbackUntomb, hrm]
        | some p =>
          obtain ⟨d, store'⟩ := p
          have hdmem : d ∈ st.store := tombstoneFirst_mem _ _ _ _ _ htf
          obtain ⟨n, hdn, hlt⟩ := wfDoc_id _ _ (hwf d hdmem)
          simp only [Rest_delete, htf, hdn]
          have hrt : untombFirst (.num n) store' = st.store :=
            untomb_roundtrip _ _ _ _ _ _ htf hdn hids (fun x hx => wfDoc_tomb _ _ (hwf x hx))
          have hidstore' : ∀ x ∈ store', ¬(getField x "_id" = some (.num st.nextId)) := by
            intro x hx hcontra
            have hmap := tombstoneFirst_map_id _ _ _ _ _ htf
            have hxin : getField x "_id" ∈ store'.map (fun y => getField y "_id") :=
              List.mem_map.mpr ⟨x, hx, rfl⟩
            rw [hmap] at hxin
            obtain ⟨y, hy, hyeq⟩ := List.mem_map.mp hxin
            obtain ⟨m, hym, hmlt⟩ := wfDoc_id _ _ (hwf y hy)
            rw [hym, hcontra] at hyeq
            simp at hyeq
            omega
          have hrm : removeFirstById st.nextId
              (store' ++ [setField (object_to_doc object) "_id" (.num st.nextId)]) = store' :=
            removeFirstById_append _ _ _ hidstore'
              (by simp [object_to_doc, setField, getField, assocGet_assocSet])
          cases insertFails with
          | true => right; simp [rollback, rollbackUntomb, hrt]
          | false =>
            cases findFails with
            | true => right; simp [rollback, rollbackUntomb, hrm, hrt]
            | false =>
              rw [if_neg (by decide : ¬(false = true)), if_neg (by decide : ¬(false = true))]
              split
              · left; rfl
              · right; simp [rollback, rollbackUntomb, hrm, hrt]

/-- C4: with the store operations of the rollback available, every failing
`update` call leaves the store contents exactly as they were before the
call — in particular the original document is back un-tombstoned and
the fresh insert is gone — so a read of the object by its id returns
the original content. -/
theorem c4_replace_rollback_atomic (st : DbState) (object query : Value) (owner_id : String)
    (insertFails findFails : Bool) (e : UErr)
    (hwf : ∀ d ∈ st.store, wfDoc st.nextId d = true)
    (hids : (st.store.map (fun x => getField x "_id")).Nodup)
    (hrun : (update st object query owner_id insertFails findFails false false).1 = .error e) :
    (update st object query owner_id insertFails findFails false false).2.store = st.store
    ∧ ∀ object_id,
        readLive (update st object query owner_id insertFails findFails false false).2 object_id
          = readLive st object_id := by
  rcases update_rollback_ok st object query owner_id insertFails findFails hwf hids with h | h
  · rw [hrun] at h
    exact absurd h (by simp)
  · refine ⟨h, fun object_id => ?_⟩
    simp [readLive, h]

instance {e a : Type} [DecidableEq e] [DecidableEq a] : DecidableEq (Except e a)
  | .ok x, .ok y => if h : x = y then isTrue (by rw [h]) else isFalse (by simp [h])
  | .ok _, .error _ => isFalse (by simp)
  | .error _, .ok _ => isFalse (by simp)
  | .error x, .error y => if h : x = y then isTrue (by rw [h]) else isFalse (by simp [h])

/-- A live stored document used by the concrete witnesses. -/
def wDoc : Value :=
  .obj [("_externalID", .str "x"), ("_object", .arr [.obj [("_by", .str "u")]]),
        ("_contexts", .arr []), ("_tombstone", .bool false), ("_id", .num 0)]

/-- A one-document store used by the concrete witnesses. -/
def wSt : DbState := ⟨[wDoc], 1⟩

/-- A replacement object for `wDoc` used by the concrete witnesses. -/
def wObj : Value := .obj [("_id", .str "x")]

/-- Witness for C4: a replace of the stored object whose insert fails after
the original was tombstoned; the call errors and the store is back to
its original contents. -/
theorem c4_replace_rollback_atomic_witness :
    (∀ d ∈ wSt.store, wfDoc wSt.nextId d = true) ∧
    (wSt.store.map (fun x => getField x "_id")).Nodup ∧
    (update wSt wObj (.obj []) "u" true false false false).1 = .error .insertFailed ∧
    (update wSt wObj (.obj []) "u" true false false false).2.store = wSt.store ∧
    readLive (update wSt wObj (.obj []) "u" true false false false).2 "x" = readLive wSt "x" :=
  ⟨by decide, by decide, by decide,
   (c4_replace_rollback_atomic wSt wObj (.obj []) "u" true false .insertFailed
     (by decide) (by decide) (by decide)).1,
   (c4_replace_rollback_atomic wSt wObj (.obj []) "u" true false .insertFailed
     (by decide) (by decide) (by decide)).2 "x"⟩

/-- With the rollback operations available, `update` either succeeds or
reports the terminal failure of the call itself — never a
rollback-operation error. -/
theorem update_error_shape (st : DbState) (object query : Value) (owner_id : String)
    (insertFails findFails : Bool) :
    (update st object query owner_id insertFails findFails false false).1 = .ok ()
    ∨ ∃ e0, (update st object query owner_id insertFails findFails false false).1 = .error e0
        ∧ e0 ≠ .rollbackDeleteFailed ∧ e0 ≠ .rollbackUntombFailed := by
  have hrb : ∀ (delete_id : Option Value) (newId : Option Int) (e0 : UErr) (s : DbState),
      (rollback delete_id newId false false e0 s).1 = .error e0 := by
    intro did nid e0 s
    cases nid <;> cases did <;> simp [rollback, rollbackUntomb]
  rw [update]
  by_cases howner : owner_id = ""
  · right
    refine ⟨.notLoggedIn, ?_, by decide, by decide⟩
    simp [howner]
  · rw [if_neg howner]
    cases hid : getField object "_id" with
    | none => right; exact ⟨.lockKeyError, rfl, by decide, by decide⟩
    | some v =>
      cases v with
      | null => right; exact ⟨.lockKeyError, rfl, by decide, by decide⟩
      | bool b => right; exact ⟨.lockKeyError, rfl, by decide, by decide⟩
      | num n => right; exact ⟨.lockKeyError, rfl, by decide, by decide⟩
      | arr xs => right; exact ⟨.lockKeyError, rfl, by decide, by decide⟩
      | obj fs => right; exact ⟨.lockKeyError, rfl, by decide, by decide⟩
      | str object_id =>
        cases insertFails with
        | true =>
          right
          refine ⟨.insertFailed, ?_, by decide, by decide⟩
          simp only [if_true]
          exact hrb _ _ _ _
        | false =>
          cases findFails with
          | true =>
            right
            refine ⟨.findFailed, ?_, by decide, by decide⟩
            simp only [Bool.false_eq_true, if_false, if_true]
            exact hrb _ _ _ _
          | false =>
            simp only [Bool.false_eq_true, if_false]
            split
            · left; rfl
            · right; exact ⟨.verifyFailed, hrb _ _ _ _, by decide, by decide⟩

/-- Counterexample for C5: on the same failing replace (the re-fetch after
the insert fails), a failing rollback delete makes the call report the
rollback error, not the original one: with the rollback delete faulted
the caller sees `rollbackDeleteFailed`, while the original failure of
that call is `findFailed`. -/
theorem c5_rollback_error_masks :
    (update wSt wObj (.obj []) "u" false true true false).1 = .error .rollbackDeleteFailed
    ∧ (update wSt wObj (.obj []) "u" false true false false).1 = .error .findFailed
    ∧ UErr.rollbackDeleteFailed ≠ UErr.findFailed :=
  ⟨by decide, by decide, by decide⟩

/-- C5 (amended): when the rollback operations themselves succeed, the
error reported by a failing `update` is the original failure, never a
rollback-operation error; if a rollback operation fails, its error
propagates from the `except` block (unguarded and unlogged in the
source) and masks the original. -/
theorem c5_original_error_when_rollback_ok (st : DbState) (object query : Value)
    (owner_id : String) (insertFails findFails : Bool) (e : UErr)
    (hrun : (update st object query owner_id insertFails findFails false false).1 = .error e) :
    e ≠ .rollbackDeleteFailed ∧ e ≠ .rollbackUntombFailed := by
  rcases update_error_shape st object query owner_id insertFails findFails with h | ⟨e0, h, h1, h2⟩
  · rw [hrun] at h
    exact absurd h (by simp)
  · rw [hrun] at h
    injection h with he
    subst he
    exact ⟨h1, h2⟩

/-- Witness for C5's amended statement: the failing re-fetch with working
rollback reports `findFailed`, which is not a rollback error. -/
theorem c5_original_error_when_rollback_ok_witness :
    (update wSt wObj (.obj []) "u" false true false false).1 = .error .findFailed
    ∧ (UErr.findFailed ≠ UErr.rollbackDeleteFailed
        ∧ UErr.findFailed ≠ UErr.rollbackUntombFailed) :=
  ⟨by decide,
   c5_original_error_when_rollback_ok wSt wObj (.obj []) "u" false true .findFailed (by decide)⟩

theorem tombstoneFirst_none (object_id owner_id : String) :
    ∀ store, (∀ d ∈ store, deleteFilter object_id owner_id d = false) →
      tombstoneFirst object_id owner_id store = none := by
  intro store
  induction store with
  | nil => intro _; simp [tombstoneFirst]
  | cons x rest ih =>
    intro h
    rw [tombstoneFirst_cons_neg _ _ _ _ (by simp [h x (by simp)]), ih (fun y hy => h y (by simp [hy]))]
    rfl

theorem tombstoneFirst_decomp (object_id owner_id : String) :
    ∀ (store store' : List Value) (d : Value),
      tombstoneFirst object_id owner_id store = some (d, store') →
      ∃ pre post, store = pre ++ d :: post
        ∧ store' = pre ++ setField d "_tombstone" (.bool true) :: post
        ∧ (∀ x ∈ pre, deleteFilter object_id owner_id x = false)
        ∧ deleteFilter object_id owner_id d = true := by
  intro store
  induction store with
  | nil => intro store' d h; simp [tombstoneFirst] at h
  | cons x rest ih =>
    intro store' d h
    by_cases hx : deleteFilter object_id owner_id x = true
    · rw [tombstoneFirst_cons_pos _ _ _ _ hx] at h
      simp at h
      obtain ⟨hdx, hs⟩ := h
      subst hdx
      exact ⟨[], rest, by simp, by simp [hs], by simp, hx⟩
    · rw [tombstoneFirst_cons_neg _ _ _ _ hx] at h
      cases hr : tombstoneFirst object_id owner_id rest with
      | none => rw [hr] at h; simp at h
      | some p =>
        rw [hr] at h
        simp at h
        obtain ⟨hp1, hs⟩ := h
        obtain ⟨pre, post, he1, he2, hpre, hd⟩ := ih p.2 p.1 (by rw [hr])
        refine ⟨x :: pre, post, by simp [he1, hp1], by simp [← hs, he2, hp1], ?_, hp1 ▸ hd⟩
        intro y hy
        rcases List.mem_cons.mp hy with h1 | h2
        · subst h1
          exact Bool.eq_false_iff.mpr hx
        · exact hpre y h2

theorem getField_setField_obj (fs : List (String × Value)) (k : String) (v : Value) :
    getField (setField (.obj fs) k v) k = some v := by
  simp [setField, getField, assocGet_assocSet]

theorem deleteFilter_obj (object_id owner_id : String) (d : Value)
    (h : deleteFilter object_id owner_id d = true) : ∃ fs, d = .obj fs := by
  cases d with
  | obj fs => exact ⟨fs, rfl⟩
  | null => simp [deleteFilter, getField, eqMatch] at h
  | bool b => simp [deleteFilter, getField, eqMatch] at h
  | num n => simp [deleteFilter, getField, eqMatch] at h
  | str s => simp [deleteFilter, getField, eqMatch] at h
  | arr xs => simp [deleteFilter, getField, eqMatch] at h

theorem deleteFilter_tombstoned (object_id owner_id : String) (d : Value)
    (h : deleteFilter object_id owner_id d = true) :
    deleteFilter object_id owner_id (setField d "_tombstone" (.bool true)) = false := by
  obtain ⟨fs, rfl⟩ := deleteFilter_obj _ _ _ h
  have hg : getField (setField (.obj fs) "_tombstone" (.bool true)) "_tombstone"
      = some (.bool true) := getField_setField_obj fs _ _
  simp [deleteFilter, hg]
  intro h1 h2
  simp [eqMatch]

/-- C8: `Rest.delete` fails — leaving the store unchanged — whenever no
live document with the given external id is owned by the caller (the
object does not exist, is owned by someone else, or is already
tombstoned); and when a delete succeeds on the unique live copy, a
second delete of the same object always fails and leaves the store
unchanged — it never succeeds silently. -/
theorem c8_delete_not_found_strict (st : DbState) (object_id owner_id : String) :
    ((∀ d ∈ st.store, deleteFilter object_id owner_id d = false) →
      (Rest_delete st object_id owner_id).1
          = .error "the object you are trying to modify either does not exist or you do not have permission to modify it."
        ∧ (Rest_delete st object_id owner_id).2 = st)
    ∧ (∀ idv st',
        st.store.countP (fun d => deleteFilter object_id owner_id d) ≤ 1 →
        Rest_delete st object_id owner_id = (.ok idv, st') →
        (Rest_delete st' object_id owner_id).1
            = .error "the object you are trying to modify either does not exist or you do not have permission to modify it."
          ∧ (Rest_delete st' object_id owner_id).2 = st') := by
  constructor
  · intro h
    rw [Rest_delete, tombstoneFirst_none _ _ _ h]
    exact ⟨rfl, rfl⟩
  · intro idv st' hcount hok
    cases htf : tombstoneFirst object_id owner_id st.store with
    | none => simp [Rest_delete, htf] at hok
    | some p =>
      obtain ⟨d, store'⟩ := p
      cases hgid : getField d "_id" with
      | none => simp [Rest_delete, htf, hgid] at hok
      | some idv0 =>
        simp only [Rest_delete, htf, hgid] at hok
        simp at hok
        obtain ⟨-, hst'⟩ := hok
        obtain ⟨pre, post, he1, he2, hpre, hd⟩ := tombstoneFirst_decomp _ _ _ _ _ htf
        have hpost : ∀ x ∈ post, deleteFilter object_id owner_id x = false := by
          intro x hx
          have : st.store.countP (fun y => deleteFilter object_id owner_id y)
              = (pre.countP (fun y => deleteFilter object_id owner_id y)
                  + ((List.countP (fun y => deleteFilter object_id owner_id y) post) + 1)) := by
            rw [he1]
            simp [List.countP_append, List.countP_cons, hd]
          rw [this] at hcount
          have hz : List.countP (fun y => deleteFilter object_id owner_id y) post = 0 := by
            omega
          exact Bool.eq_false_iff.mpr (List.countP_eq_zero.mp hz x hx)
        have hall : ∀ x ∈ store', deleteFilter object_id owner_id x = false := by
          simp only [he2]
          intro x hx
          rcases List.mem_append.mp hx with hx1 | hx2
          · exact hpre x hx1
          · rcases List.mem_cons.mp hx2 with hx3 | hx4
            · rw [hx3]
              exact deleteFilter_tombstoned _ _ _ hd
            · exact hpost x hx4
        subst hst'
        rw [Rest_delete]
        rw [show tombstoneFirst object_id owner_id
            (DbState.mk store' st.nextId).store = none from tombstoneFirst_none _ _ _ hall]
        exact ⟨rfl, rfl⟩

/-- Witness for C8: deleting an absent id fails and changes nothing, and
the second of two deletes of the stored object fails. -/
theorem c8_delete_not_found_strict_witness :
    (∀ d ∈ (⟨[], 5⟩ : DbState).store, deleteFilter "x" "u" d = false) ∧
    ((Rest_delete ⟨[], 5⟩ "x" "u").1
        = .error "the object you are trying to modify either does not exist or you do not have permission to modify it."
      ∧ (Rest_delete ⟨[], 5⟩ "x" "u").2 = (⟨[], 5⟩ : DbState)) ∧
    (wSt.store.countP (fun d => deleteFilter "x" "u" d) ≤ 1) ∧
    (Rest_delete wSt "x" "u"
      = (.ok (.num 0), ⟨[setField wDoc "_tombstone" (.bool true)], 1⟩)) ∧
    ((Rest_delete (⟨[setField wDoc "_tombstone" (.bool true)], 1⟩ : DbState) "x" "u").1
        = .error "the object you are trying to modify either does not exist or you do not have permission to modify it."
      ∧ (Rest_delete (⟨[setField wDoc "_tombstone" (.bool true)], 1⟩ : DbState) "x" "u").2
          = (⟨[setField wDoc "_tombstone" (.bool true)], 1⟩ : DbState)) :=
  ⟨by decide,
   (c8_delete_not_found_strict ⟨[], 5⟩ "x" "u").1 (by decide),
   by decide,
   by decide,
   (c8_delete_not_found_strict wSt "x" "u").2 (.num 0)
     ⟨[setField wDoc "_tombstone" (.bool true)], 1⟩ (by decide) (by decide)⟩

/-- The filter of the older delete endpoint (db/db.py lines 135-137):
`object.uuid == obj_id` and `object.signed == user`, with Mongo
dotted-path fan-out over the `object` array. -/
def dbDeleteFilter (obj_id user : String) (d : Value) : Bool :=
  (match getField d "object" with
   | some (.arr l) => l.any (fun e => eqMatch (.str obj_id) (getField e "uuid"))
   | some e => eqMatch (.str obj_id) (getField e "uuid")
   | none => false) &&
  (match getField d "object" with
   | some (.arr l) => l.any (fun e => eqMatch (.str user) (getField e "signed"))
   | some e => eqMatch (.str user) (getField e "signed")
   | none => false)

/-- `delete_one`: remove the first matching document, reporting how many
were deleted. -/
def removeFirstWhere (p : Value → Bool) : List Value → Option (List Value)
  | [] => none
  | d :: rest => if p d then some rest else (removeFirstWhere p rest).map (fun l => d :: l)

/-- The `/delete` endpoint of db/db.py (lines 130-139): a `delete_one` on
the uuid/signed filter whose raw result is returned; no error is raised
when nothing matches. -/
def db_delete (store : List Value) (obj_id user : String) : Nat × List Value :=
  match removeFirstWhere (dbDeleteFilter obj_id user) store with
  | some store' => (1, store')
  | none => (0, store)

/-- Counterexample for C8 as stated: the db/db.py delete endpoint, also
named by the claim, completes without error on a non-existent object
id, returning deleted count 0 and the unchanged store — a silent
success rather than a NotFound failure. -/
theorem c8_db_delete_succeeds_silently : db_delete [] "x" "u" = (0, []) := by decide

/-! ## app/query/broker.py — the change broker's match pass -/

/-- The broker registry (broker.py `self.queries`): socket id to query id
to stored (rewritten) query document. -/
structure BrokerSt where
  queries : List (String × List (String × Value))
deriving DecidableEq

/-- Events the match pass emits to sockets. -/
inductive BEv where
  | matched (socket_id query_id : String) (doc : Value)
  | errored (socket_id query_id : String) (msg : String)
deriving DecidableEq

/-- Outcome of a match pass: completion, or stuck forever (deadlock). -/
inductive PassOut where
  | completed (st : BrokerSt) (evs : List BEv)
  | deadlocked (st : BrokerSt) (evs : List BEv)
deriving DecidableEq

/-- One socket's slice of `match_object_to_open_queries` (broker.py lines
41-62), with the store's `find_one` as the oracle `find1` (returning an
optional matching document or raising).  For each query in order: the
stored query dict is mutated in place (`query["object.uuid"] =
object_id`, line 52) and evaluated; a returned document emits a match
event.  If the evaluation raises, the except branch awaits
`remove_queries`, which re-acquires `self.query_lock` (line 82) — but
the pass runs inside `watch`'s `async with self.query_lock` (line 33)
and asyncio locks are not reentrant, so the acquire never returns: the
pass is stuck with the failing query still registered (only its
in-place mutation applied), no error event delivered, and the
remaining queries unevaluated.  The boolean component flags this
deadlock. -/
def goQ (find1 : Value → Except String (Option Value)) (object_id socket_id : String) :
    List (String × Value) → List (String × Value) × List BEv × Bool
  | [] => ([], [], false)
  | (query_id, q) :: rest =>
    let q' := setField q "object.uuid" (.str object_id)
    match find1 q' with
    | .error _ => ((query_id, q') :: rest, [], true)
    | .ok res =>
      let out := goQ find1 object_id socket_id rest
      ((query_id, q') :: out.1,
       (match res with
        | some doc => [BEv.matched socket_id query_id doc]
        | none => []) ++ out.2.1,
       out.2.2)

/-- The outer socket loop of `match_object_to_open_queries`. -/
def goS (find1 : Value → Except String (Option Value)) (object_id : String) :
    List (String × List (String × Value)) →
      List (String × List (String × Value)) × List BEv × Bool
  | [] => ([], [], false)
  | (socket_id, qs) :: rest =>
    let out := goQ find1 object_id socket_id qs
    if out.2.2 then ((socket_id, out.1) :: rest, out.2.1, true)
    else
      let outr := goS find1 object_id rest
      ((socket_id, out.1) :: outr.1, out.2.1 ++ outr.2.1, outr.2.2)

/-- `match_object_to_open_queries` as invoked by `watch` (broker.py line
39), under the already-held `query_lock`. -/
def matchPass (find1 : Value → Except String (Option Value)) (object_id : String)
    (st : BrokerSt) : PassOut :=
  let out := goS find1 object_id st.queries
  if out.2.2 then .deadlocked ⟨out.1⟩ out.2.1 else .completed ⟨out.1⟩ out.2.1

/-- C6 (the code as written): a registry with one throwing query (`q1`, on which the
store raises) and one live matching query (`q2`).  The match pass
deadlocks: `q1` is still registered (with its in-place `object.uuid`
mutation), no error event is delivered, and `q2` is never evaluated —
no events at all are emitted. -/
theorem c6_throwing_query_deadlocks_match_pass :
    matchPass
      (fun q => match getField q "bad" with
        | some _ => .error "boom"
        | none => .ok (some (.obj [("r", .num 1)])))
      "o1" ⟨[("s1", [("q1", .obj [("bad", .num 1)]), ("q2", .obj [])])]⟩
    = .deadlocked
        ⟨[("s1", [("q1", .obj [("bad", .num 1), ("object.uuid", .str "o1")]),
                  ("q2", .obj [])])]⟩ [] := rfl

theorem goQ_completed (find1 : Value → Except String (Option Value))
    (object_id socket_id : String) :
    ∀ qs, (goQ find1 object_id socket_id qs).2.2 = false →
      (goQ find1 object_id socket_id qs).1
        = qs.map (fun qp => (qp.1, setField qp.2 "object.uuid" (.str object_id))) := by
  intro qs
  induction qs with
  | nil => intro _; simp [goQ]
  | cons p rest ih =>
    obtain ⟨query_id, q⟩ := p
    intro h
    cases hf : find1 (setField q "object.uuid" (.str object_id)) with
    | error e =>
      rw [goQ] at h
      simp [hf] at h
    | ok res =>
      rw [goQ] at h ⊢
      simp only [hf] at h ⊢
      simp at h ⊢
      exact ih h

theorem goS_completed (find1 : Value → Except String (Option Value)) (object_id : String) :
    ∀ ss, (goS find1 object_id ss).2.2 = false →
      (goS find1 object_id ss).1
        = ss.map (fun s =>
            (s.1, s.2.map (fun qp => (qp.1, setField qp.2 "object.uuid" (.str object_id))))) := by
  intro ss
  induction ss with
  | nil => intro _; simp [goS]
  | cons p rest ih =>
    obtain ⟨socket_id, qs⟩ := p
    intro h
    cases hq : (goQ find1 object_id socket_id qs).2.2 with
    | true =>
      rw [goS] at h
      simp [hq] at h
    | false =>
      rw [goS] at h ⊢
      simp only [hq] at h ⊢
      simp at h ⊢
      exact ⟨goQ_completed _ _ _ qs hq, ih h⟩

/-- C7 counterexample: a match pass is not read-only for the registered
queries.  With a single registered query `{}` and a change for object
`o1`, the pass completes and the stored query afterwards is
`{"object.uuid": "o1"}` — not the predicate stored at subscribe time. -/
theorem c7_match_pass_not_readonly :
    matchPass (fun _ => .ok none) "o1" ⟨[("s1", [("q1", .obj [])])]⟩
      = .completed ⟨[("s1", [("q1", .obj [("object.uuid", .str "o1")])])]⟩ []
    ∧ Value.obj [("object.uuid", .str "o1")] ≠ .obj [] :=
  ⟨rfl, by decide⟩

/-- C7 (amended): a completed match pass rewrites every registered query in
place, setting exactly its `object.uuid` key to the changed object's
id and leaving everything else about the registry unchanged; each
change is evaluated against the subscription's stored predicate with
this key overwritten. -/
theorem c7_match_pass_mutation (find1 : Value → Except String (Option Value))
    (object_id : String) (st : BrokerSt) (st' : BrokerSt) (evs : List BEv)
    (h : matchPass find1 object_id st = .completed st' evs) :
    st'.queries = st.queries.map (fun s =>
      (s.1, s.2.map (fun qp => (qp.1, setField qp.2 "object.uuid" (.str object_id))))) := by
  rw [matchPass] at h
  cases hflag : (goS find1 object_id st.queries).2.2 with
  | true =>
    rw [hflag] at h
    simp at h
  | false =>
    rw [hflag] at h
    simp at h
    rw [← goS_completed _ _ _ hflag, ← h.1]

/-- Witness for C7's amended statement: a completed pass on a one-query
registry stores the query with `object.uuid` overwritten. -/
theorem c7_match_pass_mutation_witness :
    matchPass (fun _ => .ok (some (.obj []))) "o2" ⟨[("sa", [("qa", .obj [("k", .num 2)])])]⟩
      = .completed ⟨[("sa", [("qa", .obj [("k", .num 2), ("object.uuid", .str "o2")])])]⟩
          [BEv.matched "sa" "qa" (.obj [])]
    ∧ (⟨[("sa", [("qa", .obj [("k", .num 2), ("object.uuid", .str "o2")])])]⟩ : BrokerSt).queries
        = ([("sa", [("qa", .obj [("k", .num 2)])])] :
            List (String × List (String × Value))).map (fun s =>
            (s.1, s.2.map (fun qp => (qp.1, setField qp.2 "object.uuid" (.str "o2"))))) :=
  ⟨rfl,
   c7_match_pass_mutation (fun _ => .ok (some (.obj []))) "o2"
     ⟨[("sa", [("qa", .obj [("k", .num 2)])])]⟩
     ⟨[("sa", [("qa", .obj [("k", .num 2), ("object.uuid", .str "o2")])])]⟩
     [BEv.matched "sa" "qa" (.obj [])] rfl⟩

/-! ## app/pubsub.py — the result streamer and subscription registry -/

/-- A socket message of the push channel (the `output` dict of
`publish_results`): kind, backfill/pagination flags, the owning query
id, the batch of results, and the consistency marker `now`. -/
structure Msg where
  type : String
  historical : Bool
  complete : Bool
  query_id : String
  results : List Value
  now : String
deriving DecidableEq

/-- Key lookup in an association list with string keys (Python dict
access). -/
def keyLookup {α : Type} : List (String × α) → String → Option α
  | [], _ => none
  | (k', v) :: rest, k => if k' = k then some v else keyLookup rest k

/-- Modelled from the spec: `doc_to_object` is imported by pubsub.py from
rewrite.py but absent from src.  Per the spec's data model (results
delivered to sockets are the stored objects, whose contexts the stored
document keeps alongside the payload), it extracts the single stored
object and re-attaches its contexts. -/
def doc_to_object (d : Value) : Value :=
  match getField d "_object" with
  | some (.arr [o]) => setField o "_contexts" ((getField d "_contexts").getD (.arr []))
  | _ => d

/-- Newest-first document order: by descending internal id. -/
def oidOf (d : Value) : Int :=
  match getField d "_id" with
  | some (.num n) => n
  | _ => 0

/-- The `sort=[('_id', -1)]` order of `stream_query`. -/
def newerFirst (a b : Value) : Prop := oidOf b ≤ oidOf a

instance : DecidableRel newerFirst := fun a b => Int.decLe (oidOf b) (oidOf a)

instance : IsTotal Value newerFirst := ⟨fun a b => le_total (oidOf b) (oidOf a)⟩

instance : IsTrans Value newerFirst := ⟨fun _ _ _ h1 h2 => le_trans h2 h1⟩

/-- The store's `find` with newest-first sort: the matching documents in
descending `_id` order. -/
def dbFind (db : List Value) (q : Value) : List Value :=
  List.insertionSort newerFirst (db.filter (fun d => matchesDoc q d))

/-- `PubSub.publish_results` (pubsub.py lines 160-181): send the batch to
every query path whose socket and query id are still in the
subscription registry, reporting whether anything was sent. -/
def publish_results (subs : List (String × List String)) (mtype : String)
    (historical complete : Bool) (now : String) (results : List Value) :
    List (String × String) → List (String × Msg) × Bool
  | [] => ([], false)
  | (socket_id, query_id) :: rest =>
    let out := publish_results subs mtype historical complete now results rest
    match keyLookup subs socket_id with
    | none => out
    | some qids =>
      if qids.contains query_id then
        ((socket_id, ⟨mtype, historical, complete, query_id, results, now⟩) :: out.1, true)
      else out

/-- The cursor loop of `PubSub.stream_query` (pubsub.py lines 134-158):
append `doc_to_object` of each document to the batch; on a full batch,
publish it with `complete=False` and reset, stopping (`break`, which
skips the for-else) when the publish reached no live target; after the
loop the for-else publishes the remainder with `complete=True`. -/
def stream_go (subs : List (String × List String)) (paths : List (String × String))
    (mtype : String) (historical : Bool) (now : String) (batch_size : Nat) :
    List Value → List Value → List (String × Msg)
  | [], acc => (publish_results subs mtype historical true now acc paths).1
  | d :: ds, acc =>
    let acc' := acc ++ [doc_to_object d]
    if acc'.length == batch_size then
      let out := publish_results subs mtype historical false now acc' paths
      if out.2 then out.1 ++ stream_go subs paths mtype historical now batch_size ds []
      else out.1
    else stream_go subs paths mtype historical now batch_size ds acc'

/-- `PubSub.stream_query` (pubsub.py lines 134-158). -/
def stream_query (subs : List (String × List String)) (paths : List (String × String))
    (mtype : String) (historical : Bool) (now : String) (batch_size : Nat)
    (db : List Value) (q : Value) : List (String × Msg) :=
  stream_go subs paths mtype historical now batch_size (dbFind db q) []

/-- The query wrapper of `PubSub.process_existing` (pubsub.py lines
97-107): restrict the subscription's rewritten query to live
(non-tombstoned) documents with `_id` above the `since` cursor. -/
def sinceWrap (query : Value) (since : Int) : Value :=
  .obj [("$and", .arr [query,
    .obj [("_tombstone", .bool false), ("_id", .obj [("$gt", .num since)])]])]

/-- `PubSub.process_existing` (pubsub.py lines 97-113): the one-time
historical backfill, streamed as `updates` with `historical=True`. -/
def process_existing (subs : List (String × List String)) (batch_size : Nat)
    (db : List Value) (query : Value) (since : Int) (paths : List (String × String))
    (now : String) : List (String × Msg) :=
  stream_query subs paths "updates" true now batch_size db (sinceWrap query since)

/-- Well-formedness of a pubsub-visible stored document: numeric internal
id and boolean tombstone. -/
def wfPubDoc (d : Value) : Bool :=
  (match getField d "_id" with
   | some (.num _) => true
   | _ => false) &&
  (match getField d "_tombstone" with
   | some (.bool _) => true
   | _ => false)

theorem publish_single (subs : List (String × List String)) (qids : List String)
    (socket_id query_id mtype now : String) (historical complete : Bool)
    (results : List Value)
    (h1 : keyLookup subs socket_id = some qids) (h2 : query_id ∈ qids) :
    publish_results subs mtype historical complete now results [(socket_id, query_id)]
      = ([(socket_id, ⟨mtype, historical, complete, query_id, results, now⟩)], true) := by
  simp [publish_results, h1, h2]

theorem stream_go_join (subs : List (String × List String)) (qids : List String)
    (socket_id query_id mtype now : String) (historical : Bool) (batch_size : Nat)
    (h1 : keyLookup subs socket_id = some qids) (h2 : query_id ∈ qids)
    (hbs : 0 < batch_size) :
    ∀ (pending acc : List Value), acc.length < batch_size →
      ((stream_go subs [(socket_id, query_id)] mtype historical now batch_size
          pending acc).map (fun p => p.2.results)).join
        = acc ++ pending.map doc_to_object := by
  intro pending
  induction pending with
  | nil =>
    intro acc hacc
    simp [stream_go, publish_single subs qids _ _ _ _ _ _ _ h1 h2]
  | cons d ds ih =>
    intro acc hacc
    rw [stream_go]
    by_cases hfull : acc.length + 1 = batch_size
    · simp only [List.length_append, List.length_cons, List.length_nil, Nat.zero_add, hfull,
        Nat.beq_refl, if_true, publish_single subs qids _ _ _ _ _ _ _ h1 h2]
      have hrec := ih [] (by simpa using hbs)
      simp [hrec]
    · have hne : ((acc ++ [doc_to_object d]).length == batch_size) = false := by
        simp [List.length_append]
        omega
      rw [hne]
      simp only [Bool.false_eq_true, if_false]
      rw [ih (acc ++ [doc_to_object d]) (by simp [List.length_append]; omega)]
      simp

theorem stream_go_meta (subs : List (String × List String)) (qids : List String)
    (socket_id query_id mtype now : String) (historical : Bool) (batch_size : Nat)
    (h1 : keyLookup subs socket_id = some qids) (h2 : query_id ∈ qids)
    (hbs : 0 < batch_size) :
    ∀ (pending acc : List Value),
      ∀ p ∈ stream_go subs [(socket_id, query_id)] mtype historical now batch_size
          pending acc,
        p.1 = socket_id ∧ p.2.type = mtype ∧ p.2.historical = historical
          ∧ p.2.query_id = query_id ∧ p.2.now = now := by
  intro pending
  induction pending with
  | nil =>
    intro acc p hp
    rw [stream_go, publish_single subs qids _ _ _ _ _ _ _ h1 h2] at hp
    simp at hp
    simp [hp]
  | cons d ds ih =>
    intro acc p hp
    rw [stream_go] at hp
    by_cases hfull : ((acc ++ [doc_to_object d]).length == batch_size) = true
    · rw [if_pos hfull, publish_single subs qids _ _ _ _ _ _ _ h1 h2] at hp
      simp at hp
      rcases hp with hp | hp
      · simp [hp]
      · exact ih [] p hp
    · rw [if_neg hfull] at hp
      exact ih (acc ++ [doc_to_object d]) p hp

theorem stream_go_ne_nil (subs : List (String × List String)) (qids : List String)
    (socket_id query_id mtype now : String) (historical : Bool) (batch_size : Nat)
    (h1 : keyLookup subs socket_id = some qids) (h2 : query_id ∈ qids) :
    ∀ (pending acc : List Value),
      stream_go subs [(socket_id, query_id)] mtype historical now batch_size pending acc
        ≠ [] := by
  intro pending
  induction pending with
  | nil =>
    intro acc
    rw [stream_go, publish_single subs qids _ _ _ _ _ _ _ h1 h2]
    simp
  | cons d ds ih =>
    intro acc
    rw [stream_go]
    by_cases hfull : ((acc ++ [doc_to_object d]).length == batch_size) = true
    · rw [if_pos hfull, publish_single subs qids _ _ _ _ _ _ _ h1 h2]
      simp
    · rw [if_neg hfull]
      exact ih (acc ++ [doc_to_object d])

theorem stream_go_flags (subs : List (String × List String)) (qids : List String)
    (socket_id query_id mtype now : String) (historical : Bool) (batch_size : Nat)
    (h1 : keyLookup subs socket_id = some qids) (h2 : query_id ∈ qids)
    (hbs : 0 < batch_size) :
    ∀ (pending acc : List Value), acc.length < batch_size →
      (∀ p ∈ (stream_go subs [(socket_id, query_id)] mtype historical now batch_size
          pending acc).dropLast,
        p.2.complete = false ∧ p.2.results.length = batch_size)
      ∧ ((stream_go subs [(socket_id, query_id)] mtype historical now batch_size
          pending acc).getLast?).map (fun p => p.2.complete) = some true := by
  intro pending
  induction pending with
  | nil =>
    intro acc hacc
    rw [stream_go, publish_single subs qids _ _ _ _ _ _ _ h1 h2]
    exact ⟨by simp, by simp⟩
  | cons d ds ih =>
    intro acc hacc
    by_cases hfull : ((acc ++ [doc_to_object d]).length == batch_size) = true
    · have hres : stream_go subs [(socket_id, query_id)] mtype historical now batch_size
          (d :: ds) acc
          = (socket_id, ⟨mtype, historical, false, query_id, acc ++ [doc_to_object d], now⟩)
            :: stream_go subs [(socket_id, query_id)] mtype historical now batch_size ds [] := by
        rw [stream_go]
        dsimp only
        rw [if_pos hfull, publish_single subs qids _ _ _ _ _ _ _ h1 h2]
        rfl
      have hne := stream_go_ne_nil subs qids socket_id query_id mtype now historical
        batch_size h1 h2 ds []
      have ihh := ih [] (by simpa using hbs)
      rw [hres]
      constructor
      · intro p hp
        rw [List.dropLast_cons_of_ne_nil hne] at hp
        rcases List.mem_cons.mp hp with hp1 | hp2
        · subst hp1
          exact ⟨rfl, by simpa using hfull⟩
        · exact ihh.1 p hp2
      · obtain ⟨y, hy⟩ : ∃ y, (stream_go subs [(socket_id, query_id)] mtype historical now
            batch_size ds []).getLast? = some y := by
          cases hrl : (stream_go subs [(socket_id, query_id)] mtype historical now
              batch_size ds []).getLast? with
          | none => exact absurd (List.getLast?_eq_none_iff.mp hrl) hne
          | some y => exact ⟨y, rfl⟩
        rw [List.getLast?_cons, hy]
        have hl := ihh.2
        rw [hy] at hl
        simpa using hl
    · have hres : stream_go subs [(socket_id, query_id)] mtype historical now batch_size
          (d :: ds) acc
          = stream_go subs [(socket_id, query_id)] mtype historical now batch_size ds
              (acc ++ [doc_to_object d]) := by
        rw [stream_go]
        dsimp only
        rw [if_neg hfull]
      rw [hres]
      refine ih (acc ++ [doc_to_object d]) ?_
      simp [List.length_append] at hfull ⊢
      omega

theorem beq_bool_bool (a c : Bool) :
    ((Value.bool a : Value) == .bool c) = (a == c) := by
  cases a <;> cases c <;> decide

theorem beq_some_bool (b : Bool) :
    ((some (Value.bool b) : Option Value) == some (.bool false)) = (b == false) := by
  cases b <;> decide

theorem wfPubDoc_id (d : Value) (h : wfPubDoc d = true) :
    ∃ n : Int, getField d "_id" = some (.num n) := by
  rw [wfPubDoc, Bool.and_eq_true] at h
  obtain ⟨h1, _⟩ := h
  cases hg : getField d "_id" with
  | none => rw [hg] at h1; simp at h1
  | some v =>
    cases v with
    | num n => exact ⟨n, rfl⟩
    | null => rw [hg] at h1; simp at h1
    | bool b => rw [hg] at h1; simp at h1
    | str s => rw [hg] at h1; simp at h1
    | arr xs => rw [hg] at h1; simp at h1
    | obj fs => rw [hg] at h1; simp at h1

theorem wfPubDoc_tomb (d : Value) (h : wfPubDoc d = true) :
    ∃ b, getField d "_tombstone" = some (.bool b) := by
  rw [wfPubDoc, Bool.and_eq_true] at h
  obtain ⟨_, h2⟩ := h
  cases hg : getField d "_tombstone" with
  | none => rw [hg] at h2; simp at h2
  | some v =>
    cases v with
    | bool b => exact ⟨b, rfl⟩
    | null => rw [hg] at h2; simp at h2
    | num n => rw [hg] at h2; simp at h2
    | str s => rw [hg] at h2; simp at h2
    | arr xs => rw [hg] at h2; simp at h2
    | obj fs => rw [hg] at h2; simp at h2

/-- How the wrapped backfill query evaluates on a well-formed stored
document: the subscription predicate, the clear tombstone, and the
`_id` above the cursor. -/
theorem sinceWrap_eval (q d : Value) (since : Int)
    (hn : ∃ n, getField d "_id" = some (.num n))
    (hb : ∃ b, getField d "_tombstone" = some (.bool b)) :
    matchesDoc (sinceWrap q since) d
      = (matchesDoc q d && (getField d "_tombstone" == some (.bool false))
          && decide (since < oidOf d)) := by
  obtain ⟨n, hn⟩ := hn
  obtain ⟨b, hb⟩ := hb
  simp +decide [sinceWrap, matchesDoc, matchPairs, clauseMatch, fieldCond, matchOps,
    opMatch, opMatchBase, andAll, opsOnly, isLogicalKey, all_attach, hn, hb,
    eqMatch_bool_false, beq_some_bool, beq_bool_bool, oidOf, cmpNum, Bool.and_assoc]

/-- C9: for a live subscription, the historical backfill delivers exactly
the non-tombstoned stored documents matching the wrapped rewritten
predicate with `_id` above the `since` cursor, ordered newest-first,
paged: every page is `historical=true` typed `updates` for the
subscription's query id, the concatenation of the pages is exactly the
backfill list, non-final pages are full and `complete=false`, and the
final page is `complete=true`. -/
theorem c9_backfill_exact (subs : List (String × List String)) (qids : List String)
    (socket_id query_id now : String) (batch_size : Nat) (db : List Value)
    (q : Value) (since : Int)
    (h1 : keyLookup subs socket_id = some qids) (h2 : query_id ∈ qids)
    (hbs : 0 < batch_size)
    (hdb : ∀ d ∈ db, wfPubDoc d = true) :
    (∀ p ∈ process_existing subs batch_size db q since [(socket_id, query_id)] now,
        p.1 = socket_id ∧ p.2.type = "updates" ∧ p.2.historical = true
          ∧ p.2.query_id = query_id ∧ p.2.now = now)
    ∧ ((process_existing subs batch_size db q since [(socket_id, query_id)] now).map
        (fun p => p.2.results)).join
        = (dbFind db (sinceWrap q since)).map doc_to_object
    ∧ process_existing subs batch_size db q since [(socket_id, query_id)] now ≠ []
    ∧ (∀ p ∈ (process_existing subs batch_size db q since
          [(socket_id, query_id)] now).dropLast,
        p.2.complete = false ∧ p.2.results.length = batch_size)
    ∧ ((process_existing subs batch_size db q since
          [(socket_id, query_id)] now).getLast?).map (fun p => p.2.complete) = some true
    ∧ (dbFind db (sinceWrap q since)).Perm
        (db.filter (fun d => matchesDoc q d
          && (getField d "_tombstone" == some (.bool false)) && decide (since < oidOf d)))
    ∧ (dbFind db (sinceWrap q since)).Sorted newerFirst := by
  refine ⟨?_, ?_, ?_, ?_, ?_, ?_, ?_⟩
  · exact fun p hp =>
      stream_go_meta subs qids socket_id query_id "updates" now true batch_size h1 h2 hbs
        (dbFind db (sinceWrap q since)) [] p hp
  · simpa using
      stream_go_join subs qids socket_id query_id "updates" now true batch_size h1 h2 hbs
        (dbFind db (sinceWrap q since)) [] (by simpa using hbs)
  · exact stream_go_ne_nil subs qids socket_id query_id "updates" now true batch_size h1 h2
      (dbFind db (sinceWrap q since)) []
  · exact (stream_go_flags subs qids socket_id query_id "updates" now true batch_size h1 h2
      hbs (dbFind db (sinceWrap q since)) [] (by simpa using hbs)).1
  · exact (stream_go_flags subs qids socket_id query_id "updates" now true batch_size h1 h2
      hbs (dbFind db (sinceWrap q since)) [] (by simpa using hbs)).2
  · have hcong : db.filter (fun d => matchesDoc (sinceWrap q since) d)
        = db.filter (fun d => matchesDoc q d
            && (getField d "_tombstone" == some (.bool false)) && decide (since < oidOf d)) :=
      List.filter_congr (fun d hd =>
        sinceWrap_eval q d since (wfPubDoc_id d (hdb d hd)) (wfPubDoc_tomb d (hdb d hd)))
    rw [dbFind, hcong]
    exact List.perm_insertionSort newerFirst _
  · rw [dbFind]
    exact List.sorted_insertionSort newerFirst _

/-- Witness for C9: a one-document live store, the rewritten empty query,
batch size 2, cursor 0 (end-to-end scenario 1: the backfill returns
the object with `historical=true`, `complete=true`). -/
theorem c9_backfill_exact_witness :
    keyLookup [("s", ["q"])] "s" = some ["q"] ∧ "q" ∈ ["q"] ∧ 0 < 2 ∧
    (∀ d ∈ [Value.obj [("_id", .num 1), ("_tombstone", .bool false),
        ("_object", .arr [.obj []]), ("_contexts", .arr [])]], wfPubDoc d = true) ∧
    ((process_existing [("s", ["q"])] 2
        [Value.obj [("_id", .num 1), ("_tombstone", .bool false),
          ("_object", .arr [.obj []]), ("_contexts", .arr [])]]
        (query_rewrite (.obj [])) 0 [("s", "q")] "t").map (fun p => p.2.results)).join
      = (dbFind [Value.obj [("_id", .num 1), ("_tombstone", .bool false),
          ("_object", .arr [.obj []]), ("_contexts", .arr [])]]
          (sinceWrap (query_rewrite (.obj [])) 0)).map doc_to_object ∧
    ((process_existing [("s", ["q"])] 2
        [Value.obj [("_id", .num 1), ("_tombstone", .bool false),
          ("_object", .arr [.obj []]), ("_contexts", .arr [])]]
        (query_rewrite (.obj [])) 0 [("s", "q")] "t").getLast?).map
      (fun p => p.2.complete) = some true :=
  ⟨rfl, by decide, by decide, by decide,
   (c9_backfill_exact [("s", ["q"])] ["q"] "s" "q" "t" 2
     [Value.obj [("_id", .num 1), ("_tombstone", .bool false),
       ("_object", .arr [.obj []]), ("_contexts", .arr [])]]
     (query_rewrite (.obj [])) 0 rfl (by decide) (by decide) (by decide)).2.1,
   (c9_backfill_exact [("s", ["q"])] ["q"] "s" "q" "t" 2
     [Value.obj [("_id", .num 1), ("_tombstone", .bool false),
       ("_object", .arr [.obj []]), ("_contexts", .arr [])]]
     (query_rewrite (.obj [])) 0 rfl (by decide) (by decide) (by decide)).2.2.2.2.1⟩

/-- Key update in an association list with string keys (Python dict
assignment: update in place, append if new). -/
def keySet {α : Type} : List (String × α) → String → α → List (String × α)
  | [], k, v => [(k, v)]
  | (k', v') :: rest, k, v =>
    if k' = k then (k', v) :: rest else (k', v') :: keySet rest k v

/-- Key removal in an association list with string keys (Python
`del d[k]`). -/
def keyErase {α : Type} : List (String × α) → String → List (String × α)
  | [], _ => []
  | (k', v') :: rest, k =>
    if k' = k then keyErase rest k else (k', v') :: keyErase rest k

/-- The PubSub registry (pubsub.py lines 19-20): the socket handles and the
per-socket subscription sets, both keyed by the socket id.  Socket
handles are modelled as opaque tokens. -/
structure PS where
  sockets : List (String × Nat)
  subscriptions : List (String × List String)
deriving DecidableEq

/-- The entry half of `PubSub.register` (pubsub.py lines 48-53): allocate
the socket's slots under a fresh uuid. -/
def register_enter (st : PS) (socket_id : String) (ws : Nat) : PS :=
  ⟨keySet st.sockets socket_id ws, keySet st.subscriptions socket_id []⟩

/-- The registry effect of `PubSub.subscribe` (pubsub.py lines 67-95): the
query is rewritten and test-run against the store first (`findOk`
false models that test query raising, in which case nothing was yet
registered); then the fresh query id is added to the socket's set.  A
missing socket id raises (KeyError on `self.subscriptions`). -/
def subscribe_reg (st : PS) (socket_id query_id : String) (findOk : Bool) :
    Except String PS :=
  if !findOk then .error "invalid query"
  else
    match keyLookup st.subscriptions socket_id with
    | none => .error "KeyError"
    | some qids =>
      .ok ⟨st.sockets, keySet st.subscriptions socket_id
            (if qids.contains query_id then qids else qids ++ [query_id])⟩

/-- `PubSub.unsubscribe` (pubsub.py lines 183-191): raise if the query id
is not subscribed, else remove it (the redis publish is a bus effect
outside the registry). -/
def unsubscribe_reg (st : PS) (socket_id query_id : String) : Except String PS :=
  match keyLookup st.subscriptions socket_id with
  | none => .error "KeyError"
  | some qids =>
    if qids.contains query_id then
      .ok ⟨st.sockets, keySet st.subscriptions socket_id (qids.erase query_id)⟩
    else .error "query_id does not exist."

/-- The unsubscribe loop of `PubSub.register`'s finally block (pubsub.py
lines 59-62): drain the socket's remaining query ids one by one. -/
def drainQueries (st : PS) (socket_id : String) : List String → PS
  | [] => st
  | q :: rest =>
    match unsubscribe_reg st socket_id q with
    | .ok st' => drainQueries st' socket_id rest
    | .error _ => st

/-- The teardown half of `PubSub.register` (pubsub.py lines 58-65): drain
the socket's subscriptions, then delete both of its entries. -/
def register_exit (st : PS) (socket_id : String) : PS :=
  let st' :=
    match keyLookup st.subscriptions socket_id with
    | some qids => drainQueries st socket_id qids
    | none => st
  ⟨keyErase st'.sockets socket_id, keyErase st'.subscriptions socket_id⟩

/-- The registry invariant: the socket map and the subscription map are
keyed by exactly the same socket ids, in the same insertion order. -/
def RegInv (st : PS) : Prop :=
  st.sockets.map Prod.fst = st.subscriptions.map Prod.fst

theorem keySet_map_fst {α : Type} (l : List (String × α)) (k : String) (v : α) :
    (keySet l k v).map Prod.fst
      = if (l.map Prod.fst).contains k then l.map Prod.fst
        else l.map Prod.fst ++ [k] := by
  induction l with
  | nil => simp [keySet]
  | cons p rest ih =>
    obtain ⟨k', v'⟩ := p
    by_cases h : k' = k
    · subst h
      simp [keySet]
    · have hne2 : (k == k') = false := by
        simp
        exact fun he => h he.symm
      simp only [keySet, if_neg h, List.map_cons, ih, List.contains_cons, hne2,
        Bool.false_or]
      split <;> simp

theorem keyLookup_some_contains {α : Type} (l : List (String × α)) (k : String) (v : α)
    (h : keyLookup l k = some v) : ((l.map Prod.fst).contains k) = true := by
  induction l with
  | nil => simp [keyLookup] at h
  | cons p rest ih =>
    obtain ⟨k', v'⟩ := p
    by_cases hk : k' = k
    · subst hk
      simp
    · rw [keyLookup, if_neg hk] at h
      rw [List.map_cons, List.contains_cons, ih h]
      simp

theorem keyErase_map_fst {α : Type} (l : List (String × α)) (k : String) :
    (keyErase l k).map Prod.fst = (l.map Prod.fst).filter (fun x => !(x == k)) := by
  induction l with
  | nil => simp [keyErase]
  | cons p rest ih =>
    obtain ⟨k', v'⟩ := p
    by_cases h : k' = k
    · subst h
      simp [keyErase, ih]
    · have hne : (k' == k) = false := by simp [h]
      simp [keyErase, h, ih, hne]

theorem keyLookup_keyErase {α : Type} (l : List (String × α)) (k : String) :
    keyLookup (keyErase l k) k = none := by
  induction l with
  | nil => simp [keyErase, keyLookup]
  | cons p rest ih =>
    obtain ⟨k', v'⟩ := p
    by_cases h : k' = k
    · simp [keyErase, h, ih]
    · simp [keyErase, h, keyLookup, ih]

theorem subscribe_reg_inv (st st' : PS) (socket_id query_id : String) (findOk : Bool)
    (hinv : RegInv st) (h : subscribe_reg st socket_id query_id findOk = .ok st') :
    RegInv st' := by
  rw [subscribe_reg] at h
  cases findOk with
  | false => simp at h
  | true =>
    simp only [Bool.not_true, Bool.false_eq_true, if_false] at h
    cases hl : keyLookup st.subscriptions socket_id with
    | none => rw [hl] at h; simp at h
    | some qids =>
      rw [hl] at h
      simp at h
      rw [← h]
      rw [RegInv]
      simp only [keySet_map_fst, keyLookup_some_contains _ _ _ hl, if_true]
      exact hinv

theorem unsubscribe_reg_inv (st st' : PS) (socket_id query_id : String)
    (hinv : RegInv st) (h : unsubscribe_reg st socket_id query_id = .ok st') :
    RegInv st' := by
  rw [unsubscribe_reg] at h
  cases hl : keyLookup st.subscriptions socket_id with
  | none => rw [hl] at h; simp at h
  | some qids =>
    simp only [hl] at h
    by_cases hc : qids.contains query_id = true
    · rw [if_pos hc] at h
      simp at h
      rw [← h]
      rw [RegInv]
      simp only [keySet_map_fst, keyLookup_some_contains _ _ _ hl, if_true]
      exact hinv
    · rw [if_neg hc] at h
      simp at h

theorem drainQueries_sockets (socket_id : String) :
    ∀ (qs : List String) (st : PS), (drainQueries st socket_id qs).sockets = st.sockets := by
  intro qs
  induction qs with
  | nil => intro st; rfl
  | cons q rest ih =>
    intro st
    rw [drainQueries]
    cases hu : unsubscribe_reg st socket_id q with
    | error e => rfl
    | ok st2 =>
      rw [ih st2]
      rw [unsubscribe_reg] at hu
      cases hl : keyLookup st.subscriptions socket_id with
      | none => rw [hl] at hu; simp at hu
      | some qids =>
        simp only [hl] at hu
        by_cases hc : qids.contains q = true
        · rw [if_pos hc] at hu
          simp at hu
          rw [← hu]
        · rw [if_neg hc] at hu
          simp at hu

theorem drainQueries_inv (socket_id : String) :
    ∀ (qs : List String) (st : PS), RegInv st → RegInv (drainQueries st socket_id qs) := by
  intro qs
  induction qs with
  | nil => intro st h; exact h
  | cons q rest ih =>
    intro st h
    rw [drainQueries]
    cases hu : unsubscribe_reg st socket_id q with
    | error e => exact h
    | ok st2 => exact ih st2 (unsubscribe_reg_inv st st2 socket_id q h hu)

/-- C10: the PubSub registry keeps its two maps keyed by the same socket
ids: socket registration, a successful subscribe, a successful
unsubscribe, and the registration teardown all preserve the invariant,
and after the teardown no entry for the socket id remains in either
map. -/
theorem c10_registry_key_invariant :
    (∀ (st : PS) (socket_id : String) (ws : Nat),
      RegInv st → RegInv (register_enter st socket_id ws))
    ∧ (∀ (st st' : PS) (socket_id query_id : String) (findOk : Bool),
      RegInv st → subscribe_reg st socket_id query_id findOk = .ok st' → RegInv st')
    ∧ (∀ (st st' : PS) (socket_id query_id : String),
      RegInv st → unsubscribe_reg st socket_id query_id = .ok st' → RegInv st')
    ∧ (∀ (st : PS) (socket_id : String),
      RegInv st → RegInv (register_exit st socket_id)
        ∧ keyLookup (register_exit st socket_id).sockets socket_id = none
        ∧ keyLookup (register_exit st socket_id).subscriptions socket_id = none) := by
  refine ⟨?_, ?_, ?_, ?_⟩
  · intro st socket_id ws hinv
    rw [RegInv, register_enter]
    simp only [keySet_map_fst]
    rw [hinv]
  · exact fun st st' sid qid fOk hinv h => subscribe_reg_inv st st' sid qid fOk hinv h
  · exact fun st st' sid qid hinv h => unsubscribe_reg_inv st st' sid qid hinv h
  · intro st socket_id hinv
    have hdrain : ∀ st0 : PS, RegInv st0 →
        RegInv (⟨keyErase st0.sockets socket_id, keyErase st0.subscriptions socket_id⟩ : PS) := by
      intro st0 h0
      rw [RegInv]
      simp only [keyErase_map_fst]
      rw [h0]
    refine ⟨?_, ?_, ?_⟩
    · rw [register_exit]
      cases hl : keyLookup st.subscriptions socket_id with
      | none => exact hdrain st hinv
      | some qids => exact hdrain _ (drainQueries_inv socket_id qids st hinv)
    · rw [register_exit]
      cases hl : keyLookup st.subscriptions socket_id with
      | none => exact keyLookup_keyErase _ _
      | some qids => exact keyLookup_keyErase _ _
    · rw [register_exit]
      cases hl : keyLookup st.subscriptions socket_id with
      | none => exact keyLookup_keyErase _ _
      | some qids => exact keyLookup_keyErase _ _

/-- Witness for C10 at a concrete registry: register, subscribe,
unsubscribe, teardown. -/
theorem c10_registry_key_invariant_witness :
    RegInv ⟨[("s", 7)], [("s", [])]⟩ ∧
    RegInv (register_enter ⟨[("s", 7)], [("s", [])]⟩ "s2" 9) ∧
    subscribe_reg ⟨[("s", 7)], [("s", [])]⟩ "s" "q" true
      = .ok ⟨[("s", 7)], [("s", ["q"])]⟩ ∧
    RegInv (⟨[("s", 7)], [("s", ["q"])]⟩ : PS) ∧
    unsubscribe_reg ⟨[("s", 7)], [("s", ["q"])]⟩ "s" "q"
      = .ok ⟨[("s", 7)], [("s", [])]⟩ ∧
    RegInv (register_exit ⟨[("s", 7)], [("s", ["q"])]⟩ "s") ∧
    keyLookup (register_exit (⟨[("s", 7)], [("s", ["q"])]⟩ : PS) "s").sockets "s" = none ∧
    keyLookup (register_exit (⟨[("s", 7)], [("s", ["q"])]⟩ : PS) "s").subscriptions "s"
      = none :=
  ⟨rfl,
   c10_registry_key_invariant.1 ⟨[("s", 7)], [("s", [])]⟩ "s2" 9 rfl,
   by decide,
   c10_registry_key_invariant.2.1 ⟨[("s", 7)], [("s", [])]⟩ ⟨[("s", 7)], [("s", ["q"])]⟩
     "s" "q" true rfl (by decide),
   by decide,
   (c10_registry_key_invariant.2.2.2 ⟨[("s", 7)], [("s", ["q"])]⟩ "s" rfl).1,
   (c10_registry_key_invariant.2.2.2 ⟨[("s", 7)], [("s", ["q"])]⟩ "s" rfl).2.1,
   (c10_registry_key_invariant.2.2.2 ⟨[("s", 7)], [("s", ["q"])]⟩ "s" rfl).2.2⟩
